import Mathlib

/-!
Verification of the flight-status reduction pipeline (`src/task2.py`,
`most_recent_flights_csv` and `_parse_time_flex`) against its
natural-language specification.

The Python code is shallowly embedded:

* `str.strip` / `str.lower` / string `<` are embedded as executable
  char-list functions (`pyStrip`, `pyLower`, `strLt`) with Python's
  code-point semantics;
* `datetime.time` values are `TimeOfDay`, instants (`pandas.Timestamp`)
  are `DT` records of calendar/clock fields;
* `datetime.strptime` restricted to the four formats the code uses is
  embedded per format (`strptimeHMS` &c.); the regex `_DATE_RE` is
  embedded as `containsDate`;
* `pd.to_datetime` applied to the update column is an explicit function
  parameter `toDt : String → Option DT` of the pipeline (`errors="coerce"`
  failure = `none`); a concrete instance for canonical timestamp strings
  is `pdToDatetimeModel`;
* the dataframe is a list of records; boolean masks become per-record
  predicates; `sort_values` on `[flightkey, lastupdt_parsed]` (a stable
  lexicographic sort with NaT last under descending order) is embedded as
  a stable insertion sort with `none` below every instant;
* `raise ValueError` — and the `pandas.errors.IndexingError` that escapes
  the drop path when `df.drop` (line 118) leaves `last_from_time` on the
  stale pre-drop index — become the `Except Err` monad.
-/

/-- A clock time, as produced by `datetime.strptime(...).time()`. -/
structure TimeOfDay where
  hour : Nat
  minute : Nat
  second : Nat
deriving Repr, DecidableEq

/-- An absolute instant (calendar date plus clock time), modelling a
`pandas.Timestamp` at second precision. -/
structure DT where
  year : Nat
  month : Nat
  day : Nat
  hour : Nat
  minute : Nat
  second : Nat
deriving Repr, DecidableEq

/-- Python `str.strip()` on the char list of a string. -/
def pyStrip (s : String) : String :=
  String.mk (((s.data.dropWhile Char.isWhitespace).reverse.dropWhile Char.isWhitespace).reverse)

/-- Python `str.lower()` (ASCII case folding suffices for the data here). -/
def pyLower (s : String) : String :=
  String.mk (s.data.map Char.toLower)

/-- Lexicographic code-point comparison of char lists: Python string `<`. -/
def listLtChar : List Char → List Char → Bool
  | [], [] => false
  | [], _ :: _ => true
  | _ :: _, [] => false
  | a :: as, b :: bs =>
      if a < b then true
      else if b < a then false
      else listLtChar as bs

/-- Python string `<` (used by `sort_values` on the `flightkey` column). -/
def strLt (s t : String) : Bool :=
  listLtChar s.data t.data

/-- Numeric value of an ASCII digit char. -/
def digitVal (c : Char) : Nat := c.toNat - 48

/-- Read one or two ASCII digits, two when two are available.  This is the
behaviour of the `strptime` regex alternations for `%H`, `%M`, `%S`, `%I`
(2-digit alternative first), given that in the four formats used here a
numeric field is always followed by a non-digit or the end of the input. -/
def readNum2 : List Char → Option (Nat × List Char)
  | a :: b :: rest =>
      if a.isDigit && b.isDigit then some (10 * digitVal a + digitVal b, rest)
      else if a.isDigit then some (digitVal a, b :: rest)
      else none
  | [a] => if a.isDigit then some (digitVal a, []) else none
  | [] => none

/-- Consume a literal `:`. -/
def expectColon : List Char → Option (List Char)
  | ':' :: rest => some rest
  | _ => none

/-- Consume the whitespace run that a blank in a `strptime` format matches
(one or more whitespace chars). -/
def expectWs : List Char → Option (List Char)
  | c :: rest =>
      if c.isWhitespace then some (rest.dropWhile Char.isWhitespace) else none
  | [] => none

/-- Consume `AM`/`PM` case-insensitively (`%p`); `true` means PM. -/
def readMeridiem : List Char → Option (Bool × List Char)
  | a :: m :: rest =>
      if (a == 'A' || a == 'a') && (m == 'M' || m == 'm') then some (false, rest)
      else if (a == 'P' || a == 'p') && (m == 'M' || m == 'm') then some (true, rest)
      else none
  | _ => none

/-- `datetime.strptime(s, "%H:%M:%S").time()`, `none` on `ValueError`.
`%S` values 60 and 61 pass the regex but make the `time` constructor raise,
which the caller catches the same way, so they are folded into failure. -/
def strptimeHMS (cs : List Char) : Option TimeOfDay := do
  let (h, r1) ← readNum2 cs
  let r2 ← expectColon r1
  let (m, r3) ← readNum2 r2
  let r4 ← expectColon r3
  let (s, r5) ← readNum2 r4
  if h ≤ 23 && m ≤ 59 && s ≤ 59 && r5.isEmpty then some ⟨h, m, s⟩ else none

/-- `datetime.strptime(s, "%H:%M").time()`, `none` on `ValueError`. -/
def strptimeHM (cs : List Char) : Option TimeOfDay := do
  let (h, r1) ← readNum2 cs
  let r2 ← expectColon r1
  let (m, r3) ← readNum2 r2
  if h ≤ 23 && m ≤ 59 && r3.isEmpty then some ⟨h, m, 0⟩ else none

/-- Conversion of a `%I` hour and a `%p` meridiem to a 24-hour value. -/
def meridiemHour (h : Nat) (pm : Bool) : Nat :=
  if pm then (if h == 12 then 12 else h + 12)
  else (if h == 12 then 0 else h)

/-- `datetime.strptime(s, "%I:%M:%S %p").time()`, `none` on `ValueError`. -/
def strptimeIMSp (cs : List Char) : Option TimeOfDay := do
  let (h, r1) ← readNum2 cs
  let r2 ← expectColon r1
  let (m, r3) ← readNum2 r2
  let r4 ← expectColon r3
  let (s, r5) ← readNum2 r4
  let r6 ← expectWs r5
  let (pm, r7) ← readMeridiem r6
  if 1 ≤ h && h ≤ 12 && m ≤ 59 && s ≤ 59 && r7.isEmpty then
    some ⟨meridiemHour h pm, m, s⟩
  else none

/-- `datetime.strptime(s, "%I:%M %p").time()`, `none` on `ValueError`. -/
def strptimeIMp (cs : List Char) : Option TimeOfDay := do
  let (h, r1) ← readNum2 cs
  let r2 ← expectColon r1
  let (m, r3) ← readNum2 r2
  let r4 ← expectWs r3
  let (pm, r5) ← readMeridiem r4
  if 1 ≤ h && h ≤ 12 && m ≤ 59 && r5.isEmpty then
    some ⟨meridiemHour h pm, m, 0⟩
  else none

/-- `datetime.strptime(s, fmt).time()` for the four formats the source
tries, `none` for a failed parse. -/
def strptimeTime (fmt : String) (s : String) : Option TimeOfDay :=
  if fmt == "%H:%M:%S" then strptimeHMS s.data
  else if fmt == "%H:%M" then strptimeHM s.data
  else if fmt == "%I:%M:%S %p" then strptimeIMSp s.data
  else if fmt == "%I:%M %p" then strptimeIMp s.data
  else none

/-- The format cascade of `_parse_time_flex` (src/task2.py lines 22-26). -/
def timeFormats : List String := ["%H:%M:%S", "%H:%M", "%I:%M:%S %p", "%I:%M %p"]

/-- `_parse_time_flex` (src/task2.py lines 10-27): strip the input, return
`None` for a null or empty value, otherwise try the four time formats in
order, first success winning. -/
def parse_time_flex (s : Option String) : Option TimeOfDay :=
  match s with
  | none => none
  | some s0 =>
      let t := pyStrip s0
      if t == "" then none
      else timeFormats.findSome? (fun fmt => strptimeTime fmt t)

/-- Separator class a dash-or-slash separator of `_DATE_RE`. -/
def isSep (c : Char) : Bool := c == '-' || c == '/'

/-- Whether the list starts with four ASCII digits (`\d«4»` of `_DATE_RE`). -/
def fourDigitsAt : List Char → Bool
  | a :: b :: c :: d :: _ => a.isDigit && b.isDigit && c.isDigit && d.isDigit
  | _ => false

/-- The rests reachable by consuming one or two digits (`\d«1,2»`). -/
def afterDigits12 : List Char → List (List Char)
  | [] => []
  | a :: rest =>
      if a.isDigit then
        match rest with
        | b :: rest2 => if b.isDigit then [rest, rest2] else [rest]
        | [] => [rest]
      else []

/-- Consume a a dash-or-slash separator separator. -/
def sepThen : List Char → Option (List Char)
  | c :: r => if isSep c then some r else none
  | [] => none

/-- Match of `\d«4»«sep»\d«2»«sep»\d«2»` anchored at the head of the list. -/
def matchDateA : List Char → Bool
  | a :: b :: c :: d :: s1 :: e :: f :: s2 :: g :: h :: _ =>
      a.isDigit && b.isDigit && c.isDigit && d.isDigit && isSep s1 &&
      e.isDigit && f.isDigit && isSep s2 && g.isDigit && h.isDigit
  | _ => false

/-- Match of `\d«1,2»«sep»\d«1,2»«sep»\d«4»` anchored at the head of the list
(both quantifier choices are explored, as regex backtracking does). -/
def matchDateB (cs : List Char) : Bool :=
  (afterDigits12 cs).any fun r1 =>
    match sepThen r1 with
    | some r2 =>
        (afterDigits12 r2).any fun r3 =>
          match sepThen r3 with
          | some r4 => fourDigitsAt r4
          | none => false
    | none => false

/-- `re.search` of `_DATE_RE` over all start positions of the char list. -/
def dateSearch : List Char → Bool
  | [] => false
  | c :: rest => matchDateA (c :: rest) || matchDateB (c :: rest) || dateSearch rest

/-- `bool(_DATE_RE.search(s))` — the `str.contains(_DATE_RE)` test
(src/task2.py lines 31 and 94). -/
def containsDate (s : String) : Bool := dateSearch s.data

/-- An input row as handed over by `pd.read_csv` with
`keep_default_na=False`: every cell a string.  The `flight_dt` cell is kept
raw here; its `pd.to_datetime(..., errors="raise")` parse is the `toDt`
parameter of `parseDates`.  With `keep_default_na=False` no cell is NaN, so
`df.dropna(how="all")` on line 60 removes nothing and is not modelled. -/
structure Row where
  flightkey : String
  flightnum : String
  flight_dt : String
  orig_arpt : String
  dest_arpt : String
  flightstatus : String
  lastupdt : String
  carrier_code : String
deriving Repr, DecidableEq

/-- A working record of the dataframe after loading: `flight_dt` parsed and
normalized, `lastupdt` stripped and possibly set to NA (`none`). -/
structure Rec where
  flightkey : String
  flightnum : String
  flight_dt : DT
  orig_arpt : String
  dest_arpt : String
  flightstatus : String
  lastupdt : Option String
  carrier_code : String
deriving Repr, DecidableEq

/-- An output row after column selection and the rename of
`lastupdt_parsed` to `lastupdt`; `none` in `lastupdt` is NaT. -/
structure OutRow where
  flightkey : String
  flightnum : String
  flight_dt : DT
  orig_arpt : String
  dest_arpt : String
  flightstatus : String
  lastupdt : Option DT
  carrier_code : Option String
deriving Repr, DecidableEq

/-- The errors `most_recent_flights_csv` can raise: the `ValueError`s it
raises itself, and `indexingError` for the `pandas.errors.IndexingError`
that escapes uncaught from line 130 or 135 after the drop at line 118 has
put `last_from_time` (line 103, pre-drop index) out of alignment with the
recomputed boolean masks. -/
inductive Err where
  | dateParse : Err
  | blankLastupdt : Err
  | unparseableTimeOnly (samples : List String) : Err
  | indexingError : Err
deriving Repr, DecidableEq

/-- The row filter of src/task2.py lines 61-63: keep a row iff its stripped
`flightkey` is non-empty and is not (case-insensitively) the literal header
name `flightkey`. -/
def rowKept (r : Row) : Bool :=
  !(pyStrip r.flightkey == "") && !(pyLower (pyStrip r.flightkey) == "flightkey")

/-- Lines 61-63: drop blank-key rows and re-embedded header rows. -/
def loadFilter (rows : List Row) : List Row :=
  rows.filter rowKept

/-- `.dt.normalize()` — zero the time-of-day of an instant (line 72). -/
def normalizeDT (d : DT) : DT :=
  { d with hour := 0, minute := 0, second := 0 }

/-- Build the working record of a row: `flight_dt` parsed (by `toDt`) and
normalized (line 72), `lastupdt` stripped (line 75). -/
def mkRec (r : Row) (d : DT) : Rec :=
  ⟨r.flightkey, r.flightnum, normalizeDT d, r.orig_arpt, r.dest_arpt,
   r.flightstatus, some (pyStrip r.lastupdt), r.carrier_code⟩

/-- Lines 72 and 75: parse every `flight_dt` cell with
`pd.to_datetime(..., errors="raise")` (failure raises), normalize it, and
strip `lastupdt`. -/
def parseDates (toDt : String → Option DT) : List Row → Except Err (List Rec)
  | [] => .ok []
  | r :: rs =>
      match toDt r.flight_dt with
      | none => .error .dateParse
      | some d =>
          match parseDates toDt rs with
          | .ok xs => .ok (mkRec r d :: xs)
          | .error e => .error e

/-- The blank-like token set of line 76. -/
def blankTokens : List String := ["", "NA", "N/A", "null", "None"]

/-- Line 76: `lastupdt.isin(["", "NA", "N/A", "null", "None"])`. -/
def blankLike (o : Option String) : Bool :=
  match o with
  | some s => blankTokens.contains s
  | none => false

/-- Replace the `lastupdt` cell of a record. -/
def setLast (r : Rec) (v : Option String) : Rec :=
  { r with lastupdt := v }

/-- Line 81: under `midnight`, a blank-like `lastupdt` becomes `"00:00:00"`. -/
def fillMidnight (r : Rec) : Rec :=
  if blankLike r.lastupdt then setLast r (some "00:00:00") else r

/-- Line 90: a still blank-like `lastupdt` becomes `pd.NA`. -/
def naRec (r : Rec) : Rec :=
  if blankLike r.lastupdt then setLast r none else r

/-- Lines 78-90: the blank-handling policy dispatch (`midnight` fills,
`drop` filters, `error` raises, any other string does nothing) followed by
the unconditional NA marking of line 90. -/
def applyBlankPolicy (pol : String) (recs : List Rec) : Except Err (List Rec) :=
  if pol == "midnight" then
    .ok (((recs.map fillMidnight)).map naRec)
  else if pol == "drop" then
    .ok ((recs.filter (fun r => !blankLike r.lastupdt)).map naRec)
  else if pol == "error" then
    if recs.any (fun r => blankLike r.lastupdt) then .error .blankLastupdt
    else .ok (recs.map naRec)
  else
    .ok (recs.map naRec)

/-- Line 94: `lastupdt` contains the date pattern (`na=False`). -/
def has_date (r : Rec) : Bool :=
  match r.lastupdt with
  | some s => containsDate s
  | none => false

/-- Line 95: time-only rows — no date pattern but a non-NA value. -/
def no_date (r : Rec) : Bool :=
  !has_date r && r.lastupdt.isSome

/-- Lines 105-108: a time-only row whose value matches none of the four
time formats (`bad_mask`). -/
def badTO (r : Rec) : Bool :=
  no_date r && (parse_time_flex r.lastupdt).isNone

/-- `pandas.Series.unique` — first-occurrence deduplication. -/
def listUniqueAux (seen : List String) : List String → List String
  | [] => []
  | x :: xs =>
      if seen.contains x then listUniqueAux seen xs
      else x :: listUniqueAux (x :: seen) xs

/-- First-occurrence deduplication of a list of strings. -/
def listUnique (l : List String) : List String :=
  listUniqueAux [] l

/-- Line 110: `bad_vals = df.loc[no_date].loc[bad_mask, "lastupdt"].unique()[:5]`. -/
def badSamples (recs : List Rec) : List String :=
  (listUnique ((recs.filter badTO).filterMap (fun r => r.lastupdt))).take 5

/-- Lines 104-135: the time-only policy step together with the merge that
follows it.  Under `error` an unparseable time-only value raises with the
sample values; under `midnight` every row is kept (`times` filled with
`time(0,0,0)`).  Under `drop` — and under any other policy string, which
falls into the same `else` branch — a bad time-only row triggers
`df.drop` at line 118, which leaves `last_from_time` (created at line 103)
on the stale pre-drop index while the masks are recomputed on the shrunken
frame; the boolean `.loc[no_date]` at line 130 (when a time-only row
survives) or the unconditional one at line 135 is then an unalignable
indexer and pandas raises `IndexingError`, so the call crashes and no row
survives.  With no bad time-only row nothing is dropped, the indexes stay
aligned, and every row continues. -/
def timeOnlyPolicy (pol : String) (recs : List Rec) : Except Err (List Rec) :=
  if pol == "error" && recs.any badTO then
    .error (.unparseableTimeOnly (badSamples recs))
  else if pol == "midnight" then .ok recs
  else if recs.any badTO then .error .indexingError
  else .ok recs

/-- The parsed time of a time-only row, `time(0,0,0)` for a bad row kept by
the `midnight` policy (line 114). -/
def timeOrZero (r : Rec) : TimeOfDay :=
  (parse_time_flex r.lastupdt).getD ⟨0, 0, 0⟩

/-- Line 130: `flight_dt + timedelta(hours, minutes, seconds)`.  The
pipeline only adds a clock time to a normalized (midnight) instant, so the
fieldwise sum needs no carrying. -/
def addTime (d : DT) (t : TimeOfDay) : DT :=
  { d with hour := d.hour + t.hour, minute := d.minute + t.minute,
           second := d.second + t.second }

/-- Lines 98-135 merged per record: the `lastupdt_parsed` column.  A
date-bearing value is strictly parsed (`errors="coerce"`, so `none` on
failure); a time-only value is attached to the record's own `flight_dt`;
an NA value stays NaT. -/
def parsedOf (toDt : String → Option DT) (r : Rec) : Option DT :=
  if has_date r then r.lastupdt.bind toDt
  else if no_date r then some (addTime r.flight_dt (timeOrZero r))
  else none

/-- A strictly monotone encoding of an instant's fields, giving the
chronological order of valid instants. -/
def dtKey (d : DT) : Nat :=
  d.second + 60 * (d.minute + 60 * (d.hour + 24 * (d.day + 32 * (d.month + 13 * d.year))))

/-- Sort key of `lastupdt_parsed` with NaT strictly below every instant
(`sort_values(..., ascending=False)` places NaT last). -/
def parsedKey (o : Option DT) : Nat :=
  match o with
  | none => 0
  | some d => dtKey d + 1

/-- The comparison realised by
`sort_values(["flightkey", "lastupdt_parsed"], ascending=[True, False])`:
keys ascending, parsed timestamps descending, NaT last. -/
def cmpRec (toDt : String → Option DT) (r1 r2 : Rec) : Bool :=
  if r1.flightkey == r2.flightkey then
    decide (parsedKey (parsedOf toDt r2) ≤ parsedKey (parsedOf toDt r1))
  else strLt r1.flightkey r2.flightkey

/-- Stable insertion: place `x` before the first element it compares
less-or-equal to. -/
def insertLe {α : Type} (le : α → α → Bool) (x : α) : List α → List α
  | [] => [x]
  | y :: ys => if le x y then x :: y :: ys else y :: insertLe le x ys

/-- Stable sort (insertion sort), embedding the stable multi-column
lexsort behind `sort_values` on several columns. -/
def sortByLe {α : Type} (le : α → α → Bool) : List α → List α
  | [] => []
  | r :: rs => insertLe le r (sortByLe le rs)

/-- `drop_duplicates(subset=["flightkey"], keep="first")` (line 139): keep
the first row of each key, in order. -/
def dedupByKeyAux (seen : List String) : List Rec → List Rec
  | [] => []
  | r :: rs =>
      if seen.contains r.flightkey then dedupByKeyAux seen rs
      else r :: dedupByKeyAux (r.flightkey :: seen) rs

/-- Keep the first row of each flight key. -/
def dedupByKey (l : List Rec) : List Rec :=
  dedupByKeyAux [] l

/-- Lines 138-139: the reducer — stable sort by key ascending and parsed
update descending, then first row per key. -/
def reduceLatest (toDt : String → Option DT) (batch : List Rec) : List Rec :=
  dedupByKey (sortByLe (cmpRec toDt) batch)

/-- Lines 141-145: the projector — column selection, optional
`carrier_code`, rename of `lastupdt_parsed` to `lastupdt`. -/
def projRec (hasCarrier : Bool) (toDt : String → Option DT) (r : Rec) : OutRow :=
  ⟨r.flightkey, r.flightnum, r.flight_dt, r.orig_arpt, r.dest_arpt,
   r.flightstatus, parsedOf toDt r,
   if hasCarrier then some r.carrier_code else none⟩

/-- Stages 1-2 of the pipeline up to the resolved batch: load, filter,
parse dates, blank policy, time-only policy.  The surviving records each
carry their resolution through `parsedOf`. -/
def resolvedBatch (toDt : String → Option DT) (rows : List Row)
    (on_missing : String) : Except Err (List Rec) := do
  let recs ← parseDates toDt (loadFilter rows)
  let recs2 ← applyBlankPolicy on_missing recs
  timeOnlyPolicy on_missing recs2

/-- `most_recent_flights_csv` (src/task2.py lines 34-146), with the CSV
already read into `rows`, `pd.to_datetime` abstracted as `toDt`, and the
presence of the optional `carrier_code` column as `hasCarrier`. -/
def most_recent_flights_csv (toDt : String → Option DT) (hasCarrier : Bool)
    (rows : List Row) (on_missing : String) : Except Err (List OutRow) := do
  let batch ← resolvedBatch toDt rows on_missing
  return (reduceLatest toDt batch).map (projRec hasCarrier toDt)

/-- Gregorian leap year. -/
def isLeap (y : Nat) : Bool :=
  (y % 4 == 0 && !(y % 100 == 0)) || y % 400 == 0

/-- Days in a month of the Gregorian calendar. -/
def daysInMonth (y m : Nat) : Nat :=
  if m == 2 then (if isLeap y then 29 else 28)
  else if m == 4 || m == 6 || m == 9 || m == 11 then 30
  else 31

/-- A representable instant: real calendar date and clock time, with the
year inside the whole-year range of `pandas.Timestamp` (1678-2261). -/
def validDT (d : DT) : Bool :=
  decide (1678 ≤ d.year) && decide (d.year ≤ 2261) &&
  decide (1 ≤ d.month) && decide (d.month ≤ 12) &&
  decide (1 ≤ d.day) && decide (d.day ≤ daysInMonth d.year d.month) &&
  decide (d.hour ≤ 23) && decide (d.minute ≤ 59) && decide (d.second ≤ 59)

/-- The ASCII digit char of a value below ten. -/
def digitChar (n : Nat) : Char := Char.ofNat (48 + n)

/-- Two-digit zero-padded decimal chars. -/
def pad2chars (n : Nat) : List Char := [digitChar (n / 10 % 10), digitChar (n % 10)]

/-- Four-digit zero-padded decimal chars. -/
def pad4chars (n : Nat) : List Char :=
  [digitChar (n / 1000 % 10), digitChar (n / 100 % 10), digitChar (n / 10 % 10),
   digitChar (n % 10)]

/-- Modelled from the spec: the "canonical full-timestamp string form"
`YYYY-MM-DD HH:MM:SS` of an instant.  The repository itself hands output
rows to pandas for writing; no formatting code exists under src/, so the
formatter is taken from the spec's words. -/
def formatCanonical (d : DT) : String :=
  String.mk (pad4chars d.year ++ '-' :: pad2chars d.month ++ '-' :: pad2chars d.day ++
    ' ' :: pad2chars d.hour ++ ':' :: pad2chars d.minute ++ ':' :: pad2chars d.second)

/-- Modelled from the spec: `pd.to_datetime(s, errors="coerce")` restricted
to the canonical forms `YYYY-MM-DD HH:MM:SS` and `YYYY-MM-DD` (a date-only
value parses to midnight).  `pd.to_datetime` is pandas library code, not
repository code; this model validates the calendar and the representable
year range and returns `none` (NaT) otherwise, as pandas does on these
shapes of input. -/
def pdToDatetimeModel (s : String) : Option DT :=
  match s.data with
  | [y1, y2, y3, y4, a, m1, m2, b, d1, d2, c, h1, h2, e, n1, n2, f, s1, s2] =>
      if y1.isDigit && y2.isDigit && y3.isDigit && y4.isDigit && a == '-' &&
         m1.isDigit && m2.isDigit && b == '-' && d1.isDigit && d2.isDigit &&
         c == ' ' && h1.isDigit && h2.isDigit && e == ':' && n1.isDigit &&
         n2.isDigit && f == ':' && s1.isDigit && s2.isDigit then
        let d : DT :=
          ⟨1000 * digitVal y1 + 100 * digitVal y2 + 10 * digitVal y3 + digitVal y4,
           10 * digitVal m1 + digitVal m2, 10 * digitVal d1 + digitVal d2,
           10 * digitVal h1 + digitVal h2, 10 * digitVal n1 + digitVal n2,
           10 * digitVal s1 + digitVal s2⟩
        if validDT d then some d else none
      else none
  | [y1, y2, y3, y4, a, m1, m2, b, d1, d2] =>
      if y1.isDigit && y2.isDigit && y3.isDigit && y4.isDigit && a == '-' &&
         m1.isDigit && m2.isDigit && b == '-' && d1.isDigit && d2.isDigit then
        let d : DT :=
          ⟨1000 * digitVal y1 + 100 * digitVal y2 + 10 * digitVal y3 + digitVal y4,
           10 * digitVal m1 + digitVal m2, 10 * digitVal d1 + digitVal d2, 0, 0, 0⟩
        if validDT d then some d else none
      else none
  | _ => none

/-- The earlier record `r` against a later candidate: the candidate wins
only with a strictly greater resolved update. -/
def betterOf (toDt : String → Option DT) (r : Rec) (o : Option Rec) : Rec :=
  match o with
  | none => r
  | some b =>
      if parsedKey (parsedOf toDt b) > parsedKey (parsedOf toDt r) then b else r

/-- The reducer's contract, in the spec's words: among the records of key
`k`, the one with the greatest resolved update (`parsedKey`, NaT below
every instant), the earliest in input order winning ties. -/
def firstArgmax (toDt : String → Option DT) (k : String) : List Rec → Option Rec
  | [] => none
  | r :: rs =>
      if r.flightkey == k then some (betterOf toDt r (firstArgmax toDt k rs))
      else firstArgmax toDt k rs

/-- A CSV row every field of which is blank (after Python stripping). -/
def allBlankRow (r : Row) : Bool :=
  pyStrip r.flightkey == "" && pyStrip r.flightnum == "" && pyStrip r.flight_dt == "" &&
  pyStrip r.orig_arpt == "" && pyStrip r.dest_arpt == "" && pyStrip r.flightstatus == "" &&
  pyStrip r.lastupdt == "" && pyStrip r.carrier_code == ""

theorem mem_insertLe {α : Type} (le : α → α → Bool) (x a : α) (l : List α) :
    a ∈ insertLe le x l ↔ a = x ∨ a ∈ l := by
  induction l with
  | nil => simp [insertLe]
  | cons y ys ih =>
      simp only [insertLe]
      cases hxy : le x y with
      | true => simp
      | false =>
          simp only [Bool.false_eq_true, if_false, List.mem_cons, ih]
          tauto

theorem mem_sortByLe {α : Type} (le : α → α → Bool) (a : α) (l : List α) :
    a ∈ sortByLe le l ↔ a ∈ l := by
  induction l with
  | nil => simp [sortByLe]
  | cons y ys ih =>
      simp only [sortByLe, mem_insertLe, ih, List.mem_cons]

theorem mem_dedupByKeyAux (seen : List String) (l : List Rec) (a : Rec) :
    a ∈ dedupByKeyAux seen l → a ∈ l := by
  induction l generalizing seen with
  | nil => simp [dedupByKeyAux]
  | cons r rs ih =>
      simp only [dedupByKeyAux]
      cases h : seen.contains r.flightkey with
      | true =>
          intro hm
          exact List.mem_cons_of_mem _ (ih seen hm)
      | false =>
          intro hm
          rcases List.mem_cons.mp hm with h1 | h1
          · exact h1 ▸ List.mem_cons_self _ _
          · exact List.mem_cons_of_mem _ (ih _ h1)

theorem mem_dedupByKey (l : List Rec) (a : Rec) :
    a ∈ dedupByKey l → a ∈ l :=
  mem_dedupByKeyAux [] l a

theorem parseDates_mem (toDt : String → Option DT) (rows : List Row)
    (recs : List Rec) (h : parseDates toDt rows = .ok recs) :
    ∀ x ∈ recs, ∃ row ∈ rows, ∃ d, toDt row.flight_dt = some d ∧ x = mkRec row d := by
  induction rows generalizing recs with
  | nil =>
      simp only [parseDates, Except.ok.injEq] at h
      subst h
      simp
  | cons r rs ih =>
      simp only [parseDates] at h
      cases hd : toDt r.flight_dt with
      | none => rw [hd] at h; exact absurd h (by simp)
      | some d =>
          rw [hd] at h
          cases hrest : parseDates toDt rs with
          | error e => rw [hrest] at h; exact absurd h (by simp)
          | ok xs =>
              rw [hrest] at h
              cases h
              intro x hx
              rcases List.mem_cons.mp hx with h1 | h1
              · exact ⟨r, List.mem_cons_self _ _, d, hd, h1⟩
              · rcases ih xs hrest x h1 with ⟨row, hrow, d2, hd2, hx2⟩
                exact ⟨row, List.mem_cons_of_mem _ hrow, d2, hd2, hx2⟩

theorem setLast_core (r : Rec) (v : Option String) :
    (setLast r v).flightkey = r.flightkey ∧ (setLast r v).flight_dt = r.flight_dt := by
  simp [setLast]

theorem naRec_core (r : Rec) :
    (naRec r).flightkey = r.flightkey ∧ (naRec r).flight_dt = r.flight_dt := by
  unfold naRec
  cases h : blankLike r.lastupdt <;> simp [setLast]

theorem fillMidnight_core (r : Rec) :
    (fillMidnight r).flightkey = r.flightkey ∧ (fillMidnight r).flight_dt = r.flight_dt := by
  unfold fillMidnight
  cases h : blankLike r.lastupdt <;> simp [setLast]

theorem applyBlankPolicy_mem (pol : String) (recs recs2 : List Rec)
    (h : applyBlankPolicy pol recs = .ok recs2) :
    ∀ x ∈ recs2, ∃ r0 ∈ recs, x.flightkey = r0.flightkey ∧ x.flight_dt = r0.flight_dt := by
  unfold applyBlankPolicy at h
  intro x hx
  cases h1 : (pol == "midnight") with
  | true =>
      rw [h1] at h
      simp only [if_true, Except.ok.injEq] at h
      subst h
      rcases List.mem_map.mp hx with ⟨y, hy, hxy⟩
      rcases List.mem_map.mp hy with ⟨z, hz, hyz⟩
      refine ⟨z, hz, ?_⟩
      subst hxy; subst hyz
      rcases naRec_core (fillMidnight z) with ⟨c1, c2⟩
      rcases fillMidnight_core z with ⟨c3, c4⟩
      exact ⟨c1.trans c3, c2.trans c4⟩
  | false =>
      rw [h1] at h
      simp only [Bool.false_eq_true, if_false] at h
      cases h2 : (pol == "drop") with
      | true =>
          rw [h2] at h
          simp only [if_true, Except.ok.injEq] at h
          subst h
          rcases List.mem_map.mp hx with ⟨y, hy, hxy⟩
          refine ⟨y, List.mem_of_mem_filter hy, ?_⟩
          subst hxy
          exact naRec_core y
      | false =>
          rw [h2] at h
          simp only [Bool.false_eq_true, if_false] at h
          cases h3 : (pol == "error") with
          | true =>
              rw [h3] at h
              simp only [if_true] at h
              cases h4 : recs.any (fun r => blankLike r.lastupdt) with
              | true => rw [h4] at h; exact absurd h (by simp)
              | false =>
                  rw [h4] at h
                  simp only [Bool.false_eq_true, if_false, Except.ok.injEq] at h
                  subst h
                  rcases List.mem_map.mp hx with ⟨y, hy, hxy⟩
                  exact ⟨y, hy, by subst hxy; exact naRec_core y⟩
          | false =>
              rw [h3] at h
              simp only [Bool.false_eq_true, if_false, Except.ok.injEq] at h
              subst h
              rcases List.mem_map.mp hx with ⟨y, hy, hxy⟩
              exact ⟨y, hy, by subst hxy; exact naRec_core y⟩

theorem timeOnlyPolicy_ok_eq (pol : String) (recs batch : List Rec)
    (h : timeOnlyPolicy pol recs = .ok batch) : batch = recs := by
  unfold timeOnlyPolicy at h
  cases h1 : (pol == "error" && recs.any badTO) with
  | true => rw [h1] at h; exact absurd h (by simp)
  | false =>
      rw [h1] at h
      simp only [Bool.false_eq_true, if_false] at h
      cases h2 : (pol == "midnight") with
      | true =>
          rw [h2] at h
          simp only [if_true, Except.ok.injEq] at h
          exact h.symm
      | false =>
          rw [h2] at h
          simp only [Bool.false_eq_true, if_false] at h
          cases h3 : recs.any badTO with
          | true => rw [h3] at h; exact absurd h (by simp)
          | false =>
              rw [h3] at h
              simp only [Bool.false_eq_true, if_false, Except.ok.injEq] at h
              exact h.symm

theorem timeOnlyPolicy_sub (pol : String) (recs batch : List Rec)
    (h : timeOnlyPolicy pol recs = .ok batch) :
    ∀ x ∈ batch, x ∈ recs := by
  intro x hx
  rw [timeOnlyPolicy_ok_eq pol recs batch h] at hx
  exact hx

theorem resolvedBatch_cases (toDt : String → Option DT) (rows : List Row)
    (pol : String) (batch : List Rec) (h : resolvedBatch toDt rows pol = .ok batch) :
    ∃ recs recs2, parseDates toDt (loadFilter rows) = .ok recs ∧
      applyBlankPolicy pol recs = .ok recs2 ∧ timeOnlyPolicy pol recs2 = .ok batch := by
  unfold resolvedBatch at h
  cases h1 : parseDates toDt (loadFilter rows) with
  | error e => rw [h1] at h; exact absurd h (by simp [Bind.bind, Except.bind])
  | ok recs =>
      rw [h1] at h
      simp only [Bind.bind, Except.bind] at h
      cases h2 : applyBlankPolicy pol recs with
      | error e => rw [h2] at h; exact absurd h (by simp)
      | ok recs2 =>
          rw [h2] at h
          exact ⟨recs, recs2, rfl, h2, h⟩

theorem most_recent_cases (toDt : String → Option DT) (hc : Bool) (rows : List Row)
    (pol : String) (out : List OutRow)
    (h : most_recent_flights_csv toDt hc rows pol = .ok out) :
    ∃ batch, resolvedBatch toDt rows pol = .ok batch ∧
      out = (reduceLatest toDt batch).map (projRec hc toDt) := by
  unfold most_recent_flights_csv at h
  cases h1 : resolvedBatch toDt rows pol with
  | error e => rw [h1] at h; exact absurd h (by simp [Bind.bind, Except.bind])
  | ok batch =>
      rw [h1] at h
      simp only [Bind.bind, Except.bind, pure, Except.pure, Except.ok.injEq] at h
      exact ⟨batch, rfl, h.symm⟩

theorem out_mem_batch (toDt : String → Option DT) (hc : Bool) (batch : List Rec)
    (o : OutRow) (ho : o ∈ (reduceLatest toDt batch).map (projRec hc toDt)) :
    ∃ r ∈ batch, o = projRec hc toDt r := by
  rcases List.mem_map.mp ho with ⟨r, hr, hor⟩
  refine ⟨r, ?_, hor.symm⟩
  have h1 : r ∈ sortByLe (cmpRec toDt) batch := mem_dedupByKey _ _ hr
  exact (mem_sortByLe _ _ _).mp h1

theorem batch_provenance (toDt : String → Option DT) (rows : List Row)
    (pol : String) (batch : List Rec) (h : resolvedBatch toDt rows pol = .ok batch) :
    ∀ r ∈ batch, ∃ row ∈ loadFilter rows, ∃ d, toDt row.flight_dt = some d ∧
      r.flightkey = row.flightkey ∧ r.flight_dt = normalizeDT d := by
  rcases resolvedBatch_cases toDt rows pol batch h with ⟨recs, recs2, h1, h2, h3⟩
  intro r hr
  have hr2 : r ∈ recs2 := timeOnlyPolicy_sub pol recs2 batch h3 r hr
  rcases applyBlankPolicy_mem pol recs recs2 h2 r hr2 with ⟨r0, hr0, hk, hd⟩
  rcases parseDates_mem toDt (loadFilter rows) recs h1 r0 hr0 with ⟨row, hrow, d, hdd, hrd⟩
  refine ⟨row, hrow, d, hdd, ?_, ?_⟩
  · rw [hk, hrd]; rfl
  · rw [hd, hrd]; rfl

/-- C7: during loading, a row is dropped when every field is blank or when
its flight-key field, trimmed and compared case-insensitively, equals the
expected header name `flightkey`; consequently every record of the output
has a flight key that is neither blank nor (case-insensitively) the header
name, so a second header row embedded mid-file never appears as a data row
in the output. -/
theorem header_and_blank_rows_dropped_C7 (rows : List Row) :
    (∀ r ∈ rows, (allBlankRow r = true ∨ pyLower (pyStrip r.flightkey) = "flightkey") →
      r ∉ loadFilter rows) ∧
    (∀ (toDt : String → Option DT) (hc : Bool) (pol : String) (out : List OutRow),
      most_recent_flights_csv toDt hc rows pol = .ok out →
      ∀ o ∈ out, ¬(pyStrip o.flightkey = "") ∧ ¬(pyLower (pyStrip o.flightkey) = "flightkey")) := by
  constructor
  · intro r _ hcond hmem
    have hk : rowKept r = true := (List.mem_filter.mp hmem).2
    unfold rowKept at hk
    rcases hcond with hb | hh
    · unfold allBlankRow at hb
      have h1 : (pyStrip r.flightkey == "") = true := by
        rcases Bool.and_eq_true_iff.mp hb with ⟨h1, _⟩
        rcases Bool.and_eq_true_iff.mp h1 with ⟨h1, _⟩
        rcases Bool.and_eq_true_iff.mp h1 with ⟨h1, _⟩
        rcases Bool.and_eq_true_iff.mp h1 with ⟨h1, _⟩
        rcases Bool.and_eq_true_iff.mp h1 with ⟨h1, _⟩
        rcases Bool.and_eq_true_iff.mp h1 with ⟨h1, _⟩
        exact (Bool.and_eq_true_iff.mp h1).1
      rw [h1] at hk
      simp at hk
    · have h1 : (pyLower (pyStrip r.flightkey) == "flightkey") = true := by
        exact beq_iff_eq.mpr hh
      rw [h1] at hk
      simp at hk
  · intro toDt hc pol out h o ho
    rcases most_recent_cases toDt hc rows pol out h with ⟨batch, hb, hout⟩
    rw [hout] at ho
    rcases out_mem_batch toDt hc batch o ho with ⟨r, hr, hor⟩
    rcases batch_provenance toDt rows pol batch hb r hr with ⟨row, hrow, d, _, hk, _⟩
    have hkept : rowKept row = true := (List.mem_filter.mp hrow).2
    unfold rowKept at hkept
    rcases Bool.and_eq_true_iff.mp hkept with ⟨h1, h2⟩
    have hko : o.flightkey = row.flightkey := by rw [hor]; exact hk
    rw [hko]
    constructor
    · intro hEq
      rw [hEq] at h1
      simp at h1
    · intro hEq
      rw [hEq] at h2
      simp at h2

/-- C8: every record of the output has a `flight_dt` with zeroed
time-of-day — loading normalizes it to midnight and no later stage
(resolver, reducer, projector) modifies it. -/
theorem flight_dt_normalized_C8 (toDt : String → Option DT) (hc : Bool)
    (rows : List Row) (pol : String) (out : List OutRow)
    (h : most_recent_flights_csv toDt hc rows pol = .ok out) :
    ∀ o ∈ out, o.flight_dt.hour = 0 ∧ o.flight_dt.minute = 0 ∧ o.flight_dt.second = 0 := by
  intro o ho
  rcases most_recent_cases toDt hc rows pol out h with ⟨batch, hb, hout⟩
  rw [hout] at ho
  rcases out_mem_batch toDt hc batch o ho with ⟨r, hr, hor⟩
  rcases batch_provenance toDt rows pol batch hb r hr with ⟨row, _, d, _, _, hd⟩
  have h1 : o.flight_dt = r.flight_dt := by rw [hor]; rfl
  rw [h1, hd]
  exact ⟨rfl, rfl, rfl⟩

theorem listLtChar_irrefl : ∀ a : List Char, listLtChar a a = false
  | [] => rfl
  | c :: cs => by
      simp only [listLtChar, lt_irrefl, if_false]
      exact listLtChar_irrefl cs

theorem listLtChar_trans : ∀ a b c : List Char,
    listLtChar a b = true → listLtChar b c = true → listLtChar a c = true
  | [], [], _, hab, _ => by cases hab
  | [], _ :: _, [], _, hbc => by cases hbc
  | [], _ :: _, _ :: _, _, _ => rfl
  | _ :: _, [], _, hab, _ => by cases hab
  | _ :: _, _ :: _, [], _, hbc => by cases hbc
  | x :: xs, y :: ys, z :: zs, hab, hbc => by
      simp only [listLtChar] at hab hbc ⊢
      by_cases h1 : x < y
      · by_cases h2 : y < z
        · rw [if_pos (lt_trans h1 h2)]
        · by_cases h3 : z < y
          · rw [if_neg h2, if_pos h3] at hbc
            cases hbc
          · have hyz : y = z := le_antisymm (not_lt.mp h3) (not_lt.mp h2)
            rw [if_pos (hyz ▸ h1)]
      · by_cases h1b : y < x
        · rw [if_neg h1, if_pos h1b] at hab
          cases hab
        · have hxy : x = y := le_antisymm (not_lt.mp h1b) (not_lt.mp h1)
          subst hxy
          rw [if_neg h1, if_neg h1b] at hab
          by_cases h2 : x < z
          · rw [if_pos h2]
          · by_cases h3 : z < x
            · rw [if_neg h2, if_pos h3] at hbc
              cases hbc
            · rw [if_neg h2, if_neg h3] at hbc ⊢
              exact listLtChar_trans xs ys zs hab hbc

theorem listLtChar_connex : ∀ a b : List Char,
    a ≠ b → listLtChar a b = true ∨ listLtChar b a = true
  | [], [], h => absurd rfl h
  | [], _ :: _, _ => Or.inl rfl
  | _ :: _, [], _ => Or.inr rfl
  | x :: xs, y :: ys, h => by
      simp only [listLtChar]
      by_cases h1 : x < y
      · exact Or.inl (by rw [if_pos h1])
      · by_cases h2 : y < x
        · exact Or.inr (by rw [if_pos h2])
        · have hxy : x = y := le_antisymm (not_lt.mp h2) (not_lt.mp h1)
          subst hxy
          have hne : xs ≠ ys := fun hEq => h (by rw [hEq])
          rcases listLtChar_connex xs ys hne with hl | hl
          · exact Or.inl (by rw [if_neg h1, if_neg h2]; exact hl)
          · exact Or.inr (by rw [if_neg h1, if_neg h2]; exact hl)

theorem strLt_irrefl (s : String) : strLt s s = false :=
  listLtChar_irrefl s.data

theorem strLt_trans (a b c : String) (h1 : strLt a b = true) (h2 : strLt b c = true) :
    strLt a c = true :=
  listLtChar_trans a.data b.data c.data h1 h2

theorem strLt_connex (a b : String) (h : a ≠ b) :
    strLt a b = true ∨ strLt b a = true :=
  listLtChar_connex a.data b.data (fun hEq => h (congrArg String.mk hEq))

theorem cmpRec_eq_key (toDt : String → Option DT) (a b : Rec)
    (h : a.flightkey = b.flightkey) :
    cmpRec toDt a b = decide (parsedKey (parsedOf toDt b) ≤ parsedKey (parsedOf toDt a)) := by
  unfold cmpRec
  rw [if_pos (beq_iff_eq.mpr h)]

theorem cmpRec_ne_key (toDt : String → Option DT) (a b : Rec)
    (h : ¬ a.flightkey = b.flightkey) :
    cmpRec toDt a b = strLt a.flightkey b.flightkey := by
  unfold cmpRec
  rw [if_neg (fun hb => h (beq_iff_eq.mp hb))]

theorem cmpRec_total (toDt : String → Option DT) (a b : Rec) :
    cmpRec toDt a b = true ∨ cmpRec toDt b a = true := by
  by_cases h : a.flightkey = b.flightkey
  · rw [cmpRec_eq_key toDt a b h, cmpRec_eq_key toDt b a h.symm]
    rcases Nat.le_total (parsedKey (parsedOf toDt b)) (parsedKey (parsedOf toDt a)) with hl | hl
    · exact Or.inl (decide_eq_true hl)
    · exact Or.inr (decide_eq_true hl)
  · rw [cmpRec_ne_key toDt a b h, cmpRec_ne_key toDt b a (fun hEq => h hEq.symm)]
    exact strLt_connex a.flightkey b.flightkey h

theorem cmpRec_trans (toDt : String → Option DT) (a b c : Rec)
    (hab : cmpRec toDt a b = true) (hbc : cmpRec toDt b c = true) :
    cmpRec toDt a c = true := by
  by_cases h1 : a.flightkey = b.flightkey
  · by_cases h2 : b.flightkey = c.flightkey
    · rw [cmpRec_eq_key toDt a b h1] at hab
      rw [cmpRec_eq_key toDt b c h2] at hbc
      rw [cmpRec_eq_key toDt a c (h1.trans h2)]
      exact decide_eq_true (le_trans (of_decide_eq_true hbc) (of_decide_eq_true hab))
    · rw [cmpRec_ne_key toDt b c h2] at hbc
      have h3 : ¬ a.flightkey = c.flightkey := fun hEq => h2 (h1.symm.trans hEq)
      rw [cmpRec_ne_key toDt a c h3, h1]
      exact hbc
  · by_cases h2 : b.flightkey = c.flightkey
    · rw [cmpRec_ne_key toDt a b h1] at hab
      have h3 : ¬ a.flightkey = c.flightkey := fun hEq => h1 (hEq.trans h2.symm)
      rw [cmpRec_ne_key toDt a c h3, ← h2]
      exact hab
    · rw [cmpRec_ne_key toDt a b h1] at hab
      rw [cmpRec_ne_key toDt b c h2] at hbc
      have h4 : ¬ a.flightkey = c.flightkey := by
        intro hEq
        have h5 : strLt a.flightkey a.flightkey = true :=
          strLt_trans _ _ _ hab (hEq ▸ hbc)
        rw [strLt_irrefl] at h5
        cases h5
      rw [cmpRec_ne_key toDt a c h4]
      exact strLt_trans _ _ _ hab hbc

theorem pairwise_insertLe {α : Type} (le : α → α → Bool)
    (htrans : ∀ a b c, le a b = true → le b c = true → le a c = true)
    (htot : ∀ a b, le a b = true ∨ le b a = true)
    (x : α) (l : List α) (hl : List.Pairwise (fun a b => le a b = true) l) :
    List.Pairwise (fun a b => le a b = true) (insertLe le x l) := by
  induction l with
  | nil => simp [insertLe]
  | cons y ys ih =>
      rcases List.pairwise_cons.mp hl with ⟨hy, hys⟩
      simp only [insertLe]
      cases hxy : le x y with
      | true =>
          refine List.pairwise_cons.mpr ⟨?_, hl⟩
          intro b hb
          rcases List.mem_cons.mp hb with hb1 | hb1
          · rw [hb1]; exact hxy
          · exact htrans x y b hxy (hy b hb1)
      | false =>
          simp only [Bool.false_eq_true, if_false]
          refine List.pairwise_cons.mpr ⟨?_, ih hys⟩
          intro b hb
          rcases (mem_insertLe le x b ys).mp hb with hb1 | hb1
          · rw [hb1]
            rcases htot x y with h1 | h1
            · rw [h1] at hxy; cases hxy
            · exact h1
          · exact hy b hb1

theorem pairwise_sortByLe {α : Type} (le : α → α → Bool)
    (htrans : ∀ a b c, le a b = true → le b c = true → le a c = true)
    (htot : ∀ a b, le a b = true ∨ le b a = true) (l : List α) :
    List.Pairwise (fun a b => le a b = true) (sortByLe le l) := by
  induction l with
  | nil => exact List.Pairwise.nil
  | cons y ys ih => exact pairwise_insertLe le htrans htot y (sortByLe le ys) ih

theorem find_insertLe_ne (toDt : String → Option DT) (k : String) (x : Rec)
    (l : List Rec) (hx : ¬ x.flightkey = k) :
    List.find? (fun r => r.flightkey == k) (insertLe (cmpRec toDt) x l) =
      List.find? (fun r => r.flightkey == k) l := by
  have hpx : (x.flightkey == k) = false := beq_eq_false_iff_ne.mpr hx
  induction l with
  | nil => simp [insertLe, List.find?, hpx]
  | cons y ys ih =>
      simp only [insertLe]
      cases hxy : cmpRec toDt x y with
      | true =>
          rw [if_pos rfl, List.find?_cons_of_neg _ (by simp [hpx])]
      | false =>
          simp only [Bool.false_eq_true, if_false]
          cases hpy : (y.flightkey == k) with
          | true =>
              rw [List.find?_cons_of_pos _ (by exact hpy),
                  List.find?_cons_of_pos _ (by exact hpy)]
          | false =>
              rw [List.find?_cons_of_neg _ (by simp [hpy]),
                  List.find?_cons_of_neg _ (by simp [hpy])]
              exact ih

theorem find_insertLe_eq (toDt : String → Option DT) (k : String) (x : Rec)
    (l : List Rec) (hx : x.flightkey = k)
    (hl : List.Pairwise (fun a b => cmpRec toDt a b = true) l) :
    List.find? (fun r => r.flightkey == k) (insertLe (cmpRec toDt) x l) =
      some (betterOf toDt x (List.find? (fun r => r.flightkey == k) l)) := by
  have hpx : (x.flightkey == k) = true := beq_iff_eq.mpr hx
  induction l with
  | nil => simp [insertLe, List.find?, hpx, betterOf]
  | cons y ys ih =>
      rcases List.pairwise_cons.mp hl with ⟨hy, hys⟩
      simp only [insertLe]
      cases hxy : cmpRec toDt x y with
      | true =>
          rw [if_pos rfl, List.find?_cons_of_pos _ (by exact hpx)]
          cases hpy : (y.flightkey == k) with
          | true =>
              rw [List.find?_cons_of_pos _ (by exact hpy)]
              have hky : x.flightkey = y.flightkey := by
                rw [hx, beq_iff_eq.mp hpy]
              rw [cmpRec_eq_key toDt x y hky] at hxy
              have hle : parsedKey (parsedOf toDt y) ≤ parsedKey (parsedOf toDt x) :=
                of_decide_eq_true hxy
              simp only [betterOf]
              rw [if_neg (not_lt.mpr hle)]
          | false =>
              rw [List.find?_cons_of_neg _ (by simp [hpy])]
              cases hfind : List.find? (fun r => r.flightkey == k) ys with
              | none => simp [betterOf]
              | some b =>
                  have hbmem : b ∈ ys := List.mem_of_find?_eq_some hfind
                  have hpb := List.find?_some hfind
                  have hbk : b.flightkey = k := beq_iff_eq.mp hpb
                  have hky : ¬ x.flightkey = y.flightkey := by
                    intro hEq
                    rw [hx] at hEq
                    rw [← hEq] at hpy
                    simp at hpy
                  rw [cmpRec_ne_key toDt x y hky] at hxy
                  have hyb : cmpRec toDt y b = true := hy b hbmem
                  have hkyb : ¬ y.flightkey = b.flightkey := by
                    intro hEq
                    rw [hbk] at hEq
                    rw [hEq] at hpy
                    simp at hpy
                  rw [cmpRec_ne_key toDt y b hkyb] at hyb
                  have hcirc : strLt x.flightkey x.flightkey = true := by
                    have h1 := strLt_trans _ _ _ hxy hyb
                    rw [hbk, ← hx] at h1
                    exact h1
                  rw [strLt_irrefl] at hcirc
                  cases hcirc
      | false =>
          simp only [Bool.false_eq_true, if_false]
          cases hpy : (y.flightkey == k) with
          | true =>
              rw [List.find?_cons_of_pos _ (by exact hpy),
                  List.find?_cons_of_pos _ (by exact hpy)]
              have hky : x.flightkey = y.flightkey := by
                rw [hx, beq_iff_eq.mp hpy]
              rw [cmpRec_eq_key toDt x y hky] at hxy
              have hgt : parsedKey (parsedOf toDt x) < parsedKey (parsedOf toDt y) :=
                Nat.lt_of_not_le (of_decide_eq_false hxy)
              simp only [betterOf]
              rw [if_pos hgt]
          | false =>
              rw [List.find?_cons_of_neg _ (by simp [hpy]),
                  List.find?_cons_of_neg _ (by simp [hpy])]
              exact ih hys

theorem find_sortByLe_firstArgmax (toDt : String → Option DT) (k : String)
    (l : List Rec) :
    List.find? (fun r => r.flightkey == k) (sortByLe (cmpRec toDt) l) =
      firstArgmax toDt k l := by
  induction l with
  | nil => rfl
  | cons r rs ih =>
      simp only [sortByLe, firstArgmax]
      cases hrk : (r.flightkey == k) with
      | true =>
          rw [if_pos rfl,
              find_insertLe_eq toDt k r (sortByLe (cmpRec toDt) rs) (beq_iff_eq.mp hrk)
                (pairwise_sortByLe (cmpRec toDt) (cmpRec_trans toDt) (cmpRec_total toDt) rs),
              ih]
      | false =>
          simp only [Bool.false_eq_true, if_false]
          rw [find_insertLe_ne toDt k r (sortByLe (cmpRec toDt) rs)
                (beq_eq_false_iff_ne.mp hrk)]
          exact ih

theorem filter_dedupAux_seen (k : String) (seen : List String) (l : List Rec)
    (hk : seen.contains k = true) :
    (dedupByKeyAux seen l).filter (fun r => r.flightkey == k) = [] := by
  induction l generalizing seen with
  | nil => rfl
  | cons r rs ih =>
      simp only [dedupByKeyAux]
      cases hc : seen.contains r.flightkey with
      | true =>
          rw [if_pos rfl]
          exact ih seen hk
      | false =>
          simp only [Bool.false_eq_true, if_false]
          have hrk : (r.flightkey == k) = false := by
            cases hq : (r.flightkey == k) with
            | false => rfl
            | true =>
                rw [beq_iff_eq.mp hq] at hc
                rw [hc] at hk
                cases hk
          rw [List.filter_cons_of_neg (by simp [hrk])]
          exact ih (r.flightkey :: seen) (by rw [List.contains_cons, hk]; simp)

theorem filter_dedupAux_notseen (k : String) (seen : List String) (l : List Rec)
    (hk : seen.contains k = false) :
    (dedupByKeyAux seen l).filter (fun r => r.flightkey == k) =
      (List.find? (fun r => r.flightkey == k) l).toList := by
  induction l generalizing seen with
  | nil => rfl
  | cons r rs ih =>
      simp only [dedupByKeyAux]
      cases hc : seen.contains r.flightkey with
      | true =>
          rw [if_pos rfl]
          have hrk : (r.flightkey == k) = false := by
            cases hq : (r.flightkey == k) with
            | false => rfl
            | true =>
                rw [beq_iff_eq.mp hq] at hc
                rw [hc] at hk
                cases hk
          rw [List.find?_cons_of_neg _ (by simp [hrk])]
          exact ih seen hk
      | false =>
          simp only [Bool.false_eq_true, if_false]
          cases hrk : (r.flightkey == k) with
          | true =>
              rw [List.filter_cons_of_pos (by exact hrk),
                  List.find?_cons_of_pos _ (by exact hrk)]
              rw [filter_dedupAux_seen k (r.flightkey :: seen) rs
                    (by rw [List.contains_cons, beq_iff_eq.mp hrk]; simp)]
              rfl
          | false =>
              rw [List.filter_cons_of_neg (by simp [hrk]),
                  List.find?_cons_of_neg _ (by simp [hrk])]
              exact ih (r.flightkey :: seen)
                (by rw [List.contains_cons, hk]
                    cases hq : (k == r.flightkey) with
                    | false => rfl
                    | true =>
                        rw [beq_iff_eq.mp hq] at hrk
                        simp at hrk)

theorem firstArgmax_none (toDt : String → Option DT) (k : String) (l : List Rec) :
    firstArgmax toDt k l = none ↔ ∀ r ∈ l, ¬ r.flightkey = k := by
  induction l with
  | nil => simp [firstArgmax]
  | cons r rs ih =>
      simp only [firstArgmax]
      cases hrk : (r.flightkey == k) with
      | true =>
          rw [if_pos rfl]
          constructor
          · intro h; cases h
          · intro h
            exact absurd (beq_iff_eq.mp hrk) (h r (List.mem_cons_self _ _))
      | false =>
          simp only [Bool.false_eq_true, if_false]
          rw [ih]
          constructor
          · intro h x hx
            rcases List.mem_cons.mp hx with h1 | h1
            · rw [h1]; exact beq_eq_false_iff_ne.mp hrk
            · exact h x h1
          · intro h x hx
            exact h x (List.mem_cons_of_mem _ hx)

theorem firstArgmax_spec (toDt : String → Option DT) (k : String) (l : List Rec)
    (b : Rec) (h : firstArgmax toDt k l = some b) :
    b ∈ l ∧ b.flightkey = k ∧
    (∀ r ∈ l, r.flightkey = k →
       parsedKey (parsedOf toDt r) ≤ parsedKey (parsedOf toDt b)) ∧
    ∃ l1 l2, l = l1 ++ b :: l2 ∧
      ∀ r ∈ l1, r.flightkey = k →
        parsedKey (parsedOf toDt r) < parsedKey (parsedOf toDt b) := by
  induction l generalizing b with
  | nil => cases h
  | cons r rs ih =>
      simp only [firstArgmax] at h
      cases hrk : (r.flightkey == k) with
      | true =>
          rw [if_pos (by rw [hrk])] at h
          have hrkk : r.flightkey = k := beq_iff_eq.mp hrk
          cases hfa : firstArgmax toDt k rs with
          | none =>
              rw [hfa] at h
              simp only [betterOf, Option.some.injEq] at h
              subst h
              refine ⟨List.mem_cons_self _ _, hrkk, ?_, [], rs, rfl, by simp⟩
              intro x hx hxk
              rcases List.mem_cons.mp hx with h1 | h1
              · rw [h1]
              · exact absurd hxk ((firstArgmax_none toDt k rs).mp hfa x h1)
          | some bp =>
              rw [hfa] at h
              simp only [betterOf, Option.some.injEq] at h
              rcases ih bp hfa with ⟨hmem, hkey, hmax, l1, l2, hsplit, hfirst⟩
              by_cases hgt : parsedKey (parsedOf toDt bp) > parsedKey (parsedOf toDt r)
              · rw [if_pos hgt] at h
                subst h
                refine ⟨List.mem_cons_of_mem _ hmem, hkey, ?_, r :: l1, l2, by rw [hsplit]; rfl, ?_⟩
                · intro x hx hxk
                  rcases List.mem_cons.mp hx with h1 | h1
                  · rw [h1]; exact le_of_lt hgt
                  · exact hmax x h1 hxk
                · intro x hx hxk
                  rcases List.mem_cons.mp hx with h1 | h1
                  · rw [h1]; exact hgt
                  · exact hfirst x h1 hxk
              · rw [if_neg hgt] at h
                subst h
                refine ⟨List.mem_cons_self _ _, hrkk, ?_, [], rs, rfl, by simp⟩
                intro x hx hxk
                rcases List.mem_cons.mp hx with h1 | h1
                · rw [h1]
                · exact le_trans (hmax x h1 hxk) (not_lt.mp hgt)
      | false =>
          rw [if_neg (by rw [hrk]; exact Bool.false_ne_true)] at h
          rcases ih b h with ⟨hmem, hkey, hmax, l1, l2, hsplit, hfirst⟩
          refine ⟨List.mem_cons_of_mem _ hmem, hkey, ?_, r :: l1, l2, by rw [hsplit]; rfl, ?_⟩
          · intro x hx hxk
            rcases List.mem_cons.mp hx with h1 | h1
            · rw [h1] at hxk
              exact absurd hxk (beq_eq_false_iff_ne.mp hrk)
            · exact hmax x h1 hxk
          · intro x hx hxk
            rcases List.mem_cons.mp hx with h1 | h1
            · rw [h1] at hxk
              exact absurd hxk (beq_eq_false_iff_ne.mp hrk)
            · exact hfirst x h1 hxk

/-- C2: for every input batch, the output contains exactly one record per
flight key present among surviving records — its filter by any key `k`
equals the projection of `firstArgmax` at `k` — where `firstArgmax` is the
record with the greatest resolved update instant (NaT below every instant),
ties decided for the record encountered first in the surviving input order,
and a key with no surviving records is absent from the output. -/
theorem reducer_latest_C2 (toDt : String → Option DT) (hc : Bool) (rows : List Row)
    (pol : String) (out : List OutRow) (batch : List Rec)
    (hb : resolvedBatch toDt rows pol = .ok batch)
    (h : most_recent_flights_csv toDt hc rows pol = .ok out) (k : String) :
    out.filter (fun o => o.flightkey == k) =
      (firstArgmax toDt k batch).toList.map (projRec hc toDt) ∧
    ((∀ r ∈ batch, ¬ r.flightkey = k) → out.filter (fun o => o.flightkey == k) = []) ∧
    (∀ b, firstArgmax toDt k batch = some b →
      b ∈ batch ∧ b.flightkey = k ∧
      (∀ r ∈ batch, r.flightkey = k →
        parsedKey (parsedOf toDt r) ≤ parsedKey (parsedOf toDt b)) ∧
      ∃ l1 l2, batch = l1 ++ b :: l2 ∧
        ∀ r ∈ l1, r.flightkey = k →
          parsedKey (parsedOf toDt r) < parsedKey (parsedOf toDt b)) := by
  rcases most_recent_cases toDt hc rows pol out h with ⟨batch2, hb2, hout⟩
  rw [hb] at hb2
  cases hb2
  have hfilter : out.filter (fun o => o.flightkey == k) =
      ((reduceLatest toDt batch).filter (fun r => r.flightkey == k)).map (projRec hc toDt) := by
    rw [hout]
    exact List.filter_map _ _
  have hmain : out.filter (fun o => o.flightkey == k) =
      (firstArgmax toDt k batch).toList.map (projRec hc toDt) := by
    rw [hfilter]
    unfold reduceLatest dedupByKey
    rw [filter_dedupAux_notseen k [] _ rfl, find_sortByLe_firstArgmax]
  refine ⟨hmain, ?_, ?_⟩
  · intro hnone
    rw [hmain, (firstArgmax_none toDt k batch).mpr hnone]
    rfl
  · intro b hfa
    exact firstArgmax_spec toDt k batch b hfa

theorem applyBlankPolicy_error_eq (recs : List Rec) :
    applyBlankPolicy "error" recs =
      (if recs.any (fun r => blankLike r.lastupdt) then Except.error Err.blankLastupdt
       else .ok (recs.map naRec)) := rfl

theorem timeOnlyPolicy_error_eq (recs : List Rec) :
    timeOnlyPolicy "error" recs =
      (if recs.any badTO then
         Except.error (Err.unparseableTimeOnly (badSamples recs))
       else .ok recs) := by
  unfold timeOnlyPolicy
  cases h : recs.any badTO with
  | true => rfl
  | false => rfl

theorem timeOnlyPolicy_midnight_eq (recs : List Rec) :
    timeOnlyPolicy "midnight" recs = .ok recs := rfl

theorem map_naRec_id (recs : List Rec)
    (h : ∀ r ∈ recs, blankLike r.lastupdt = false) : recs.map naRec = recs := by
  induction recs with
  | nil => rfl
  | cons r rs ih =>
      have hr : naRec r = r := by
        unfold naRec
        rw [h r (List.mem_cons_self _ _)]
        rfl
      rw [List.map_cons, hr, ih (fun x hx => h x (List.mem_cons_of_mem _ hx))]

theorem not_bad_survives (pol : String) (recs2 batch : List Rec)
    (h3 : timeOnlyPolicy pol recs2 = .ok batch) (r : Rec) (hr : r ∈ recs2)
    (_hb : badTO r = false) : r ∈ batch := by
  rw [timeOnlyPolicy_ok_eq pol recs2 batch h3]
  exact hr

theorem has_date_not_bad (r : Rec) (hd : has_date r = true) : badTO r = false := by
  unfold badTO no_date
  rw [hd]
  rfl

theorem parseDates_normalized (toDt : String → Option DT) (rows : List Row)
    (recs : List Rec) (h : parseDates toDt rows = .ok recs) :
    ∀ r ∈ recs, r.flight_dt.hour = 0 ∧ r.flight_dt.minute = 0 ∧ r.flight_dt.second = 0 := by
  intro r hr
  rcases parseDates_mem toDt rows recs h r hr with ⟨row, _, d, _, hrd⟩
  rw [hrd]
  exact ⟨rfl, rfl, rfl⟩

theorem any_eq_false_of_all {α : Type} (p : α → Bool) (l : List α)
    (h : ∀ x ∈ l, p x = false) : l.any p = false := by
  cases hany : l.any p with
  | false => rfl
  | true =>
      rcases List.any_eq_true.mp hany with ⟨x, hx, hpx⟩
      rw [h x hx] at hpx
      cases hpx

/-- C1 (amended): the missing-data policy is never applied to a record
whose raw update field matches the date pattern but fails strict datetime
parsing: on every run of the time-only policy step that completes, the
record survives it under every policy with resolved update equal to the
strict parse result of its raw value — absent (NaT) on failure — never
dropped, never defaulted to midnight, never reported.  Under `drop` the
step completes exactly when no unparseable time-only record is co-present;
with one co-present the whole call dies with the pandas `IndexingError`
left by `df.drop`, which is also not policy treatment of the date-shaped
record. -/
theorem date_shaped_not_missing_C1 (toDt : String → Option DT) (pol : String)
    (recs2 : List Rec) :
    (∀ batch, timeOnlyPolicy pol recs2 = .ok batch →
       ∀ r ∈ recs2, has_date r = true →
         r ∈ batch ∧ parsedOf toDt r = r.lastupdt.bind toDt) ∧
    ((∀ r ∈ recs2, badTO r = false) → pol = "drop" →
       timeOnlyPolicy pol recs2 = .ok recs2) ∧
    ((∃ r ∈ recs2, badTO r = true) → pol = "drop" →
       timeOnlyPolicy pol recs2 = .error Err.indexingError) := by
  refine ⟨?_, ?_, ?_⟩
  · intro batch h3 r hr hd
    refine ⟨not_bad_survives pol recs2 batch h3 r hr (has_date_not_bad r hd), ?_⟩
    unfold parsedOf
    rw [hd]
    rfl
  · intro hall hpol
    subst hpol
    have hany : recs2.any badTO = false := any_eq_false_of_all _ recs2 hall
    unfold timeOnlyPolicy
    rw [hany]
    rfl
  · intro hex hpol
    subst hpol
    have hany : recs2.any badTO = true := List.any_eq_true.mpr hex
    unfold timeOnlyPolicy
    rw [hany]
    rfl

/-- Witness for the C1 amendment: the `"2019-13-45 10:00:00"` record under
`drop` completes alone and survives with NaT, while a co-present
unparseable time-only record makes the same step fail with the indexing
error. -/
theorem date_shaped_not_missing_C1_witness :
    ((⟨"K1", "100", ⟨2019, 1, 3, 0, 0, 0⟩, "ATL", "TPA", "Boarding",
        some "2019-13-45 10:00:00", ""⟩ : Rec) ∈
       ([⟨"K1", "100", ⟨2019, 1, 3, 0, 0, 0⟩, "ATL", "TPA", "Boarding",
          some "2019-13-45 10:00:00", ""⟩] : List Rec) ∧
     parsedOf pdToDatetimeModel
       ⟨"K1", "100", ⟨2019, 1, 3, 0, 0, 0⟩, "ATL", "TPA", "Boarding",
        some "2019-13-45 10:00:00", ""⟩ =
       Option.bind (some "2019-13-45 10:00:00") pdToDatetimeModel) ∧
    timeOnlyPolicy "drop"
      [⟨"K1", "100", ⟨2019, 1, 3, 0, 0, 0⟩, "ATL", "TPA", "Boarding",
         some "2019-13-45 10:00:00", ""⟩,
       ⟨"K8", "800", ⟨2019, 1, 8, 0, 0, 0⟩, "ATL", "MIA", "Boarding",
         some "junk", ""⟩] = .error Err.indexingError :=
  ⟨(date_shaped_not_missing_C1 pdToDatetimeModel "drop"
      [⟨"K1", "100", ⟨2019, 1, 3, 0, 0, 0⟩, "ATL", "TPA", "Boarding",
         some "2019-13-45 10:00:00", ""⟩]).1
     [⟨"K1", "100", ⟨2019, 1, 3, 0, 0, 0⟩, "ATL", "TPA", "Boarding",
        some "2019-13-45 10:00:00", ""⟩] rfl
     ⟨"K1", "100", ⟨2019, 1, 3, 0, 0, 0⟩, "ATL", "TPA", "Boarding",
       some "2019-13-45 10:00:00", ""⟩
     (List.mem_singleton.mpr rfl) rfl,
   (date_shaped_not_missing_C1 pdToDatetimeModel "drop"
      [⟨"K1", "100", ⟨2019, 1, 3, 0, 0, 0⟩, "ATL", "TPA", "Boarding",
         some "2019-13-45 10:00:00", ""⟩,
       ⟨"K8", "800", ⟨2019, 1, 8, 0, 0, 0⟩, "ATL", "MIA", "Boarding",
         some "junk", ""⟩]).2.2
     ⟨⟨"K8", "800", ⟨2019, 1, 8, 0, 0, 0⟩, "ATL", "MIA", "Boarding",
        some "junk", ""⟩,
      List.mem_cons_of_mem _ (List.mem_singleton.mpr rfl), rfl⟩ rfl⟩

/-- C1 as stated is false on the code: the update value
`"2019-13-45 10:00:00"` matches the date pattern and fails strict parsing,
yet under `drop` the record is not removed, under `midnight` its resolved
update does not become midnight of the flight date, and under `error` no
error is raised — all three policies return the record with NaT. -/
theorem date_shaped_policy_counterexample_C1 :
    containsDate "2019-13-45 10:00:00" = true ∧
    pdToDatetimeModel "2019-13-45 10:00:00" = none ∧
    most_recent_flights_csv pdToDatetimeModel false
      [⟨"K1", "100", "2019-01-03", "ATL", "TPA", "Boarding", "2019-13-45 10:00:00", ""⟩]
      "drop" =
      .ok [⟨"K1", "100", ⟨2019, 1, 3, 0, 0, 0⟩, "ATL", "TPA", "Boarding", none, none⟩] ∧
    most_recent_flights_csv pdToDatetimeModel false
      [⟨"K1", "100", "2019-01-03", "ATL", "TPA", "Boarding", "2019-13-45 10:00:00", ""⟩]
      "midnight" =
      .ok [⟨"K1", "100", ⟨2019, 1, 3, 0, 0, 0⟩, "ATL", "TPA", "Boarding", none, none⟩] ∧
    most_recent_flights_csv pdToDatetimeModel false
      [⟨"K1", "100", "2019-01-03", "ATL", "TPA", "Boarding", "2019-13-45 10:00:00", ""⟩]
      "error" =
      .ok [⟨"K1", "100", ⟨2019, 1, 3, 0, 0, 0⟩, "ATL", "TPA", "Boarding", none, none⟩] :=
  ⟨rfl, rfl, rfl, rfl, rfl⟩

theorem listUniqueAux_nodup (l : List String) :
    ∀ seen, (listUniqueAux seen l).Nodup ∧
      ∀ x ∈ listUniqueAux seen l, seen.contains x = false := by
  induction l with
  | nil => intro seen; exact ⟨List.Pairwise.nil, by simp [listUniqueAux]⟩
  | cons x xs ih =>
      intro seen
      simp only [listUniqueAux]
      cases hc : seen.contains x with
      | true =>
          rw [if_pos rfl]
          exact ih seen
      | false =>
          simp only [Bool.false_eq_true, if_false]
          rcases ih (x :: seen) with ⟨hnd, hni⟩
          constructor
          · refine List.nodup_cons.mpr ⟨?_, hnd⟩
            intro hmem
            have h1 := hni x hmem
            rw [List.contains_cons] at h1
            simp at h1
          · intro y hy
            rcases List.mem_cons.mp hy with h1 | h1
            · rw [h1]; exact hc
            · have h2 := hni y h1
              rw [List.contains_cons] at h2
              exact (Bool.or_eq_false_iff.mp h2).2

theorem badSamples_le5 (recs : List Rec) : (badSamples recs).length ≤ 5 :=
  List.length_take_le 5 _

theorem badSamples_nodup (recs : List Rec) : (badSamples recs).Nodup :=
  List.Nodup.sublist (List.take_sublist 5 _) ((listUniqueAux_nodup _ []).1)

theorem most_recent_of_resolved_error (toDt : String → Option DT) (hc : Bool)
    (rows : List Row) (pol : String) (e : Err)
    (h : resolvedBatch toDt rows pol = .error e) :
    most_recent_flights_csv toDt hc rows pol = .error e := by
  unfold most_recent_flights_csv
  rw [h]
  rfl

theorem most_recent_of_resolved_ok (toDt : String → Option DT) (hc : Bool)
    (rows : List Row) (pol : String) (batch : List Rec)
    (h : resolvedBatch toDt rows pol = .ok batch) :
    most_recent_flights_csv toDt hc rows pol =
      .ok ((reduceLatest toDt batch).map (projRec hc toDt)) := by
  unfold most_recent_flights_csv
  rw [h]
  rfl

theorem resolvedBatch_eq_of_parse (toDt : String → Option DT) (rows : List Row)
    (pol : String) (recs : List Rec)
    (h1 : parseDates toDt (loadFilter rows) = .ok recs) :
    resolvedBatch toDt rows pol =
      match applyBlankPolicy pol recs with
      | .ok recs2 => timeOnlyPolicy pol recs2
      | .error e => .error e := by
  unfold resolvedBatch
  rw [h1]
  simp only [Bind.bind, Except.bind]
  cases applyBlankPolicy pol recs with
  | ok recs2 => rfl
  | error e => rfl

/-- C3 (amended): under the `error` policy, a blank-like update field is
fatal with the blank-values error, whose payload carries no sample values;
when no field is blank-like, an unparseable time-only field is fatal with
the time-only error whose samples are the first-occurrence deduplication of
the offending raw values truncated to at most 5 (hence at most 5 distinct
samples); and when neither is present — in particular when the only failing
fields are full-timestamp-shaped — the call succeeds and raises nothing. -/
theorem error_policy_C3 (toDt : String → Option DT) (hc : Bool) (rows : List Row)
    (recs : List Rec) (h1 : parseDates toDt (loadFilter rows) = .ok recs) :
    ((∃ r ∈ recs, blankLike r.lastupdt = true) →
       most_recent_flights_csv toDt hc rows "error" = .error Err.blankLastupdt) ∧
    ((∀ r ∈ recs, blankLike r.lastupdt = false) →
       (∃ r ∈ recs, badTO r = true) →
       most_recent_flights_csv toDt hc rows "error" =
         .error (Err.unparseableTimeOnly (badSamples recs)) ∧
       (badSamples recs).length ≤ 5 ∧ (badSamples recs).Nodup) ∧
    ((∀ r ∈ recs, blankLike r.lastupdt = false) → (∀ r ∈ recs, badTO r = false) →
       most_recent_flights_csv toDt hc rows "error" =
         .ok ((reduceLatest toDt recs).map (projRec hc toDt))) := by
  refine ⟨?_, ?_, ?_⟩
  · intro hex
    have hany : recs.any (fun r => blankLike r.lastupdt) = true :=
      List.any_eq_true.mpr hex
    have hres : resolvedBatch toDt rows "error" = .error Err.blankLastupdt := by
      rw [resolvedBatch_eq_of_parse toDt rows "error" recs h1,
          applyBlankPolicy_error_eq, if_pos hany]
    exact most_recent_of_resolved_error toDt hc rows "error" _ hres
  · intro hall hex
    have hany : recs.any (fun r => blankLike r.lastupdt) = false :=
      any_eq_false_of_all _ recs hall
    have hbad : recs.any badTO = true := List.any_eq_true.mpr hex
    have hres : resolvedBatch toDt rows "error" =
        .error (Err.unparseableTimeOnly (badSamples recs)) := by
      rw [resolvedBatch_eq_of_parse toDt rows "error" recs h1,
          applyBlankPolicy_error_eq, if_neg (by rw [hany]; exact Bool.false_ne_true),
          map_naRec_id recs hall]
      show timeOnlyPolicy "error" recs = _
      rw [timeOnlyPolicy_error_eq, if_pos hbad]
    exact ⟨most_recent_of_resolved_error toDt hc rows "error" _ hres,
           badSamples_le5 recs, badSamples_nodup recs⟩
  · intro hall hnone
    have hany : recs.any (fun r => blankLike r.lastupdt) = false :=
      any_eq_false_of_all _ recs hall
    have hbad : recs.any badTO = false := any_eq_false_of_all _ recs hnone
    have hres : resolvedBatch toDt rows "error" = .ok recs := by
      rw [resolvedBatch_eq_of_parse toDt rows "error" recs h1,
          applyBlankPolicy_error_eq, if_neg (by rw [hany]; exact Bool.false_ne_true),
          map_naRec_id recs hall]
      show timeOnlyPolicy "error" recs = _
      rw [timeOnlyPolicy_error_eq, if_neg (by rw [hbad]; exact Bool.false_ne_true)]
    exact most_recent_of_resolved_ok toDt hc rows "error" recs hres

/-- Witness for the C3 amendment: one blank update field under `error`
raises the blank-values error. -/
theorem error_policy_C3_witness :
    most_recent_flights_csv pdToDatetimeModel false
      [⟨"K5", "500", "2019-01-05", "ATL", "RDU", "Boarding", "", ""⟩] "error" =
      .error Err.blankLastupdt :=
  (error_policy_C3 pdToDatetimeModel false
      [⟨"K5", "500", "2019-01-05", "ATL", "RDU", "Boarding", "", ""⟩]
      [⟨"K5", "500", ⟨2019, 1, 5, 0, 0, 0⟩, "ATL", "RDU", "Boarding", some "", ""⟩]
      rfl).1
    ⟨⟨"K5", "500", ⟨2019, 1, 5, 0, 0, 0⟩, "ATL", "RDU", "Boarding", some "", ""⟩,
     List.mem_singleton.mpr rfl, rfl⟩

/-- C3 as stated is false on the code: an unparseable full-timestamp-shaped
update field under `error` raises nothing (first conjunct), and the
blank-field error that is raised carries no sample values in its payload
(second conjunct). -/
theorem error_policy_counterexample_C3 :
    most_recent_flights_csv pdToDatetimeModel false
      [⟨"K1", "100", "2019-01-03", "ATL", "TPA", "Boarding", "2019-13-45 10:00:00", ""⟩]
      "error" =
      .ok [⟨"K1", "100", ⟨2019, 1, 3, 0, 0, 0⟩, "ATL", "TPA", "Boarding", none, none⟩] ∧
    most_recent_flights_csv pdToDatetimeModel false
      [⟨"K5", "500", "2019-01-05", "ATL", "RDU", "Boarding", "", ""⟩] "error" =
      .error Err.blankLastupdt :=
  ⟨rfl, rfl⟩

/-- C4: a time-only record whose update field parses as a clock time
survives the time-only policy step under every policy, and its resolved
update is the record's own `flight_dt` (the flight date, normalized to
midnight by the loader) plus the parsed time-of-day — the date components
of the resolution are exactly those of the record's flight date, never any
other (wall-clock) date. -/
theorem time_only_resolution_C4 (toDt : String → Option DT) (pol : String)
    (recs2 batch : List Rec) (h3 : timeOnlyPolicy pol recs2 = .ok batch) :
    ∀ r ∈ recs2, no_date r = true → ∀ t, parse_time_flex r.lastupdt = some t →
      r ∈ batch ∧ parsedOf toDt r = some (addTime r.flight_dt t) ∧
      (addTime r.flight_dt t).year = r.flight_dt.year ∧
      (addTime r.flight_dt t).month = r.flight_dt.month ∧
      (addTime r.flight_dt t).day = r.flight_dt.day := by
  intro r hr hnd t ht
  have hbad : badTO r = false := by
    unfold badTO
    rw [hnd, ht]
    rfl
  have hhd : has_date r = false := by
    cases hq : has_date r with
    | false => rfl
    | true =>
        unfold no_date at hnd
        rw [hq] at hnd
        cases hnd
  refine ⟨not_bad_survives pol recs2 batch h3 r hr hbad, ?_, rfl, rfl, rfl⟩
  unfold parsedOf
  rw [hhd]
  simp only [Bool.false_eq_true, if_false]
  rw [hnd]
  simp only [if_true]
  unfold timeOrZero
  rw [ht]
  rfl

/-- Witness for C4 at the repository's own test value: `"07:30:00 PM"`
with flight date 2019-01-03 resolves to 2019-01-03T19:30:00. -/
theorem time_only_resolution_C4_witness :
    ((⟨"K3", "300", ⟨2019, 1, 3, 0, 0, 0⟩, "ATL", "ORD", "Boarding",
        some "07:30:00 PM", ""⟩ : Rec) ∈
      ([⟨"K3", "300", ⟨2019, 1, 3, 0, 0, 0⟩, "ATL", "ORD", "Boarding",
         some "07:30:00 PM", ""⟩] : List Rec) ∧
     parsedOf pdToDatetimeModel
       ⟨"K3", "300", ⟨2019, 1, 3, 0, 0, 0⟩, "ATL", "ORD", "Boarding",
        some "07:30:00 PM", ""⟩ =
       some (addTime ⟨2019, 1, 3, 0, 0, 0⟩ ⟨19, 30, 0⟩) ∧
     (addTime (⟨2019, 1, 3, 0, 0, 0⟩ : DT) (⟨19, 30, 0⟩ : TimeOfDay)).year = 2019 ∧
     (addTime (⟨2019, 1, 3, 0, 0, 0⟩ : DT) (⟨19, 30, 0⟩ : TimeOfDay)).month = 1 ∧
     (addTime (⟨2019, 1, 3, 0, 0, 0⟩ : DT) (⟨19, 30, 0⟩ : TimeOfDay)).day = 3) ∧
    addTime (⟨2019, 1, 3, 0, 0, 0⟩ : DT) (⟨19, 30, 0⟩ : TimeOfDay) =
      ⟨2019, 1, 3, 19, 30, 0⟩ :=
  ⟨time_only_resolution_C4 pdToDatetimeModel "drop"
      [⟨"K3", "300", ⟨2019, 1, 3, 0, 0, 0⟩, "ATL", "ORD", "Boarding",
        some "07:30:00 PM", ""⟩]
      [⟨"K3", "300", ⟨2019, 1, 3, 0, 0, 0⟩, "ATL", "ORD", "Boarding",
        some "07:30:00 PM", ""⟩] rfl
      ⟨"K3", "300", ⟨2019, 1, 3, 0, 0, 0⟩, "ATL", "ORD", "Boarding",
        some "07:30:00 PM", ""⟩
      (List.mem_singleton.mpr rfl) rfl ⟨19, 30, 0⟩ rfl,
   rfl⟩

theorem applyBlankPolicy_midnight_eq (recs : List Rec) :
    applyBlankPolicy "midnight" recs = .ok ((recs.map fillMidnight).map naRec) := rfl

/-- C5: under the `midnight` policy, a record with a blank-like update
field is retained (its field filled with `"00:00:00"`) and resolves to its
own flight date at time-of-day 00:00:00, and a time-only record whose
field matches none of the time formats is likewise retained and resolves
to its flight date at 00:00:00. -/
theorem midnight_policy_C5 (toDt : String → Option DT) (rows0 : List Row)
    (recs recs2 batch : List Rec)
    (h1 : parseDates toDt rows0 = .ok recs)
    (h2 : applyBlankPolicy "midnight" recs = .ok recs2)
    (h3 : timeOnlyPolicy "midnight" recs2 = .ok batch) :
    (∀ r ∈ recs, blankLike r.lastupdt = true →
       setLast r (some "00:00:00") ∈ batch ∧
       parsedOf toDt (setLast r (some "00:00:00")) = some r.flight_dt ∧
       r.flight_dt.hour = 0 ∧ r.flight_dt.minute = 0 ∧ r.flight_dt.second = 0) ∧
    (∀ r ∈ recs2, no_date r = true → parse_time_flex r.lastupdt = none →
       r ∈ batch ∧ parsedOf toDt r = some r.flight_dt ∧
       r.flight_dt.hour = 0 ∧ r.flight_dt.minute = 0 ∧ r.flight_dt.second = 0) := by
  have hrecs2 : recs2 = (recs.map fillMidnight).map naRec := by
    have h4 := h2.symm.trans (applyBlankPolicy_midnight_eq recs)
    injection h4
  have hbatch : batch = recs2 := by
    have h5 := h3.symm.trans (timeOnlyPolicy_midnight_eq recs2)
    injection h5
  constructor
  · intro r hr hb
    have hf : fillMidnight r = setLast r (some "00:00:00") := by
      unfold fillMidnight
      rw [hb]
      rfl
    refine ⟨?_, rfl, parseDates_normalized toDt rows0 recs h1 r hr⟩
    rw [hbatch, hrecs2]
    exact List.mem_map.mpr ⟨fillMidnight r, List.mem_map.mpr ⟨r, hr, rfl⟩, by rw [hf]; rfl⟩
  · intro r hr hnd hpt
    have hhd : has_date r = false := by
      cases hq : has_date r with
      | false => rfl
      | true =>
          unfold no_date at hnd
          rw [hq] at hnd
          cases hnd
    refine ⟨by rw [hbatch]; exact hr, ?_, ?_⟩
    · unfold parsedOf
      rw [hhd]
      simp only [Bool.false_eq_true, if_false]
      rw [hnd]
      simp only [if_true]
      unfold timeOrZero
      rw [hpt]
      rfl
    · rcases applyBlankPolicy_mem "midnight" recs recs2 h2 r hr with ⟨r0, hr0, _, hd⟩
      rw [hd]
      exact parseDates_normalized toDt rows0 recs h1 r0 hr0

/-- Witness for C5: the repository's own midnight-policy test row — a
blank update field with flight date 2019-01-05 resolves to
2019-01-05T00:00:00 and is retained. -/
theorem midnight_policy_C5_witness :
    (setLast ⟨"K5", "500", ⟨2019, 1, 5, 0, 0, 0⟩, "ATL", "RDU", "Boarding",
        some "", ""⟩ (some "00:00:00") ∈
      ([⟨"K5", "500", ⟨2019, 1, 5, 0, 0, 0⟩, "ATL", "RDU", "Boarding",
         some "00:00:00", ""⟩] : List Rec)) ∧
    parsedOf pdToDatetimeModel
      (setLast ⟨"K5", "500", ⟨2019, 1, 5, 0, 0, 0⟩, "ATL", "RDU", "Boarding",
         some "", ""⟩ (some "00:00:00")) =
      some ⟨2019, 1, 5, 0, 0, 0⟩ ∧
    (⟨2019, 1, 5, 0, 0, 0⟩ : DT).hour = 0 ∧ (⟨2019, 1, 5, 0, 0, 0⟩ : DT).minute = 0 ∧
    (⟨2019, 1, 5, 0, 0, 0⟩ : DT).second = 0 :=
  (midnight_policy_C5 pdToDatetimeModel
      [⟨"K5", "500", "2019-01-05", "ATL", "RDU", "Boarding", "", ""⟩]
      [⟨"K5", "500", ⟨2019, 1, 5, 0, 0, 0⟩, "ATL", "RDU", "Boarding", some "", ""⟩]
      [⟨"K5", "500", ⟨2019, 1, 5, 0, 0, 0⟩, "ATL", "RDU", "Boarding", some "00:00:00", ""⟩]
      [⟨"K5", "500", ⟨2019, 1, 5, 0, 0, 0⟩, "ATL", "RDU", "Boarding", some "00:00:00", ""⟩]
      rfl rfl rfl).1
    ⟨"K5", "500", ⟨2019, 1, 5, 0, 0, 0⟩, "ATL", "RDU", "Boarding", some "", ""⟩
    (List.mem_singleton.mpr rfl) rfl

/-- C10: an `on_missing` value outside the three documented policies (for
example the misspelling `"dorp"`) raises no error about the invalid
policy: blank handling does nothing except mark blank-like fields NA, and
such records are silently retained through the time-only step with an
absent (NaT) resolved update — neither dropped, nor defaulted to midnight,
nor reported — and can appear in the output, as the concrete misspelled
run shows. -/
theorem invalid_policy_C10 (toDt : String → Option DT) (pol : String)
    (hp1 : ¬ pol = "drop") (hp2 : ¬ pol = "midnight") (hp3 : ¬ pol = "error")
    (recs : List Rec) :
    applyBlankPolicy pol recs = .ok (recs.map naRec) ∧
    (∀ batch, timeOnlyPolicy pol (recs.map naRec) = .ok batch →
       ∀ r ∈ recs, blankLike r.lastupdt = true →
         setLast r none ∈ batch ∧ parsedOf toDt (setLast r none) = none) ∧
    most_recent_flights_csv pdToDatetimeModel false
      [⟨"K7", "700", "2019-01-07", "ATL", "MIA", "Boarding", "", ""⟩] "dorp" =
      .ok [⟨"K7", "700", ⟨2019, 1, 7, 0, 0, 0⟩, "ATL", "MIA", "Boarding", none, none⟩] := by
  have e1 : (pol == "drop") = false := beq_eq_false_iff_ne.mpr hp1
  have e2 : (pol == "midnight") = false := beq_eq_false_iff_ne.mpr hp2
  have e3 : (pol == "error") = false := beq_eq_false_iff_ne.mpr hp3
  refine ⟨?_, ?_, rfl⟩
  · unfold applyBlankPolicy
    rw [e1, e2, e3]
    rfl
  · intro batch h3 r hr hb
    have hn : naRec r = setLast r none := by
      unfold naRec
      rw [hb]
      rfl
    have hmem : setLast r none ∈ recs.map naRec :=
      List.mem_map.mpr ⟨r, hr, hn⟩
    exact ⟨not_bad_survives pol (recs.map naRec) batch h3 _ hmem rfl, rfl⟩

/-- Witness for C10 at the misspelled policy `"dorp"`: the blank-field
record is retained with NaT resolution. -/
theorem invalid_policy_C10_witness :
    (setLast ⟨"K7", "700", ⟨2019, 1, 7, 0, 0, 0⟩, "ATL", "MIA", "Boarding",
        some "", ""⟩ none ∈
      ([setLast ⟨"K7", "700", ⟨2019, 1, 7, 0, 0, 0⟩, "ATL", "MIA", "Boarding",
          some "", ""⟩ none] : List Rec)) ∧
    parsedOf pdToDatetimeModel
      (setLast ⟨"K7", "700", ⟨2019, 1, 7, 0, 0, 0⟩, "ATL", "MIA", "Boarding",
         some "", ""⟩ none) = none :=
  (invalid_policy_C10 pdToDatetimeModel "dorp" (by decide) (by decide) (by decide)
      [⟨"K7", "700", ⟨2019, 1, 7, 0, 0, 0⟩, "ATL", "MIA", "Boarding", some "", ""⟩]).2.1
    [setLast ⟨"K7", "700", ⟨2019, 1, 7, 0, 0, 0⟩, "ATL", "MIA", "Boarding",
        some "", ""⟩ none] rfl
    ⟨"K7", "700", ⟨2019, 1, 7, 0, 0, 0⟩, "ATL", "MIA", "Boarding", some "", ""⟩
    (List.mem_singleton.mpr rfl) rfl

/-- C6: `_parse_time_flex` tries exactly the four formats — 24-hour with
seconds, 24-hour without seconds, 12-hour with seconds and meridiem,
12-hour without seconds and meridiem — in this fixed order on the stripped
value: the first format that matches decides the result, and the value is
unparseable (`none`) exactly when all four fail. -/
theorem time_format_cascade_C6 (s : String) :
    (∀ t, strptimeTime "%H:%M:%S" (pyStrip s) = some t →
       parse_time_flex (some s) = some t) ∧
    (strptimeTime "%H:%M:%S" (pyStrip s) = none →
       ∀ t, strptimeTime "%H:%M" (pyStrip s) = some t →
         parse_time_flex (some s) = some t) ∧
    (strptimeTime "%H:%M:%S" (pyStrip s) = none →
       strptimeTime "%H:%M" (pyStrip s) = none →
       ∀ t, strptimeTime "%I:%M:%S %p" (pyStrip s) = some t →
         parse_time_flex (some s) = some t) ∧
    (strptimeTime "%H:%M:%S" (pyStrip s) = none →
       strptimeTime "%H:%M" (pyStrip s) = none →
       strptimeTime "%I:%M:%S %p" (pyStrip s) = none →
       ∀ t, strptimeTime "%I:%M %p" (pyStrip s) = some t →
         parse_time_flex (some s) = some t) ∧
    (strptimeTime "%H:%M:%S" (pyStrip s) = none →
       strptimeTime "%H:%M" (pyStrip s) = none →
       strptimeTime "%I:%M:%S %p" (pyStrip s) = none →
       strptimeTime "%I:%M %p" (pyStrip s) = none →
       parse_time_flex (some s) = none) := by
  cases h0 : (pyStrip s == "") with
  | true =>
      have hs : pyStrip s = "" := beq_iff_eq.mp h0
      have hpf : parse_time_flex (some s) = none := by
        simp only [parse_time_flex, h0, if_true]
      refine ⟨?_, ?_, ?_, ?_, fun _ _ _ _ => hpf⟩
      · intro t ht
        rw [hs] at ht
        exact Option.noConfusion (show (none : Option TimeOfDay) = some t from ht)
      · intro _ t ht
        rw [hs] at ht
        exact Option.noConfusion (show (none : Option TimeOfDay) = some t from ht)
      · intro _ _ t ht
        rw [hs] at ht
        exact Option.noConfusion (show (none : Option TimeOfDay) = some t from ht)
      · intro _ _ _ t ht
        rw [hs] at ht
        exact Option.noConfusion (show (none : Option TimeOfDay) = some t from ht)
  | false =>
      have hpf : parse_time_flex (some s) =
          List.findSome? (fun fmt => strptimeTime fmt (pyStrip s)) timeFormats := by
        simp only [parse_time_flex, h0, Bool.false_eq_true, if_false]
      refine ⟨?_, ?_, ?_, ?_, ?_⟩
      · intro t ht
        rw [hpf]
        simp only [timeFormats, List.findSome?_cons, ht]
      · intro h1 t ht
        rw [hpf]
        simp only [timeFormats, List.findSome?_cons, h1, ht]
      · intro h1 h2 t ht
        rw [hpf]
        simp only [timeFormats, List.findSome?_cons, h1, h2, ht]
      · intro h1 h2 h3 t ht
        rw [hpf]
        simp only [timeFormats, List.findSome?_cons, h1, h2, h3, ht]
      · intro h1 h2 h3 h4
        rw [hpf]
        simp only [timeFormats, List.findSome?_cons, List.findSome?_nil, h1, h2, h3, h4]

/-- Witness for C6: `"07:30:00 PM"` fails the two 24-hour formats and is
decided by the third format (12-hour with seconds and meridiem). -/
theorem time_format_cascade_C6_witness :
    parse_time_flex (some "07:30:00 PM") = some ⟨19, 30, 0⟩ :=
  (time_format_cascade_C6 "07:30:00 PM").2.2.1 rfl rfl ⟨19, 30, 0⟩ rfl

/-- Witness for C2: two records of key `K9` with identical resolved
updates — the first one in input order wins and is the only `K9` output. -/
theorem reducer_latest_C2_witness :
    List.filter (fun o => o.flightkey == "K9")
      ([⟨"K9", "900", ⟨2019, 1, 9, 0, 0, 0⟩, "ATL", "MIA", "First",
         some ⟨2019, 1, 9, 10, 0, 0⟩, none⟩] : List OutRow) =
      [⟨"K9", "900", ⟨2019, 1, 9, 0, 0, 0⟩, "ATL", "MIA", "First",
        some ⟨2019, 1, 9, 10, 0, 0⟩, none⟩] :=
  ((reducer_latest_C2 pdToDatetimeModel false
      [⟨"K9", "900", "2019-01-09", "ATL", "MIA", "First", "10:00:00", ""⟩,
       ⟨"K9", "900", "2019-01-09", "ATL", "MIA", "Second", "10:00:00", ""⟩]
      "drop"
      [⟨"K9", "900", ⟨2019, 1, 9, 0, 0, 0⟩, "ATL", "MIA", "First",
        some ⟨2019, 1, 9, 10, 0, 0⟩, none⟩]
      [⟨"K9", "900", ⟨2019, 1, 9, 0, 0, 0⟩, "ATL", "MIA", "First", some "10:00:00", ""⟩,
       ⟨"K9", "900", ⟨2019, 1, 9, 0, 0, 0⟩, "ATL", "MIA", "Second", some "10:00:00", ""⟩]
      rfl rfl "K9").1).trans rfl

/-- Witness for C7: a second header row embedded in the input is removed
by the loader. -/
theorem header_and_blank_rows_dropped_C7_witness :
    (⟨"flightkey", "flightnum", "flight_dt", "orig_arpt", "dest_arpt",
       "flightstatus", "lastupdt", ""⟩ : Row) ∉
      loadFilter
        [⟨"flightkey", "flightnum", "flight_dt", "orig_arpt", "dest_arpt",
           "flightstatus", "lastupdt", ""⟩,
         ⟨"K6", "600", "2019-01-06", "ATL", "JFK", "Boarding", "19:00:00", ""⟩] :=
  (header_and_blank_rows_dropped_C7
      [⟨"flightkey", "flightnum", "flight_dt", "orig_arpt", "dest_arpt",
         "flightstatus", "lastupdt", ""⟩,
       ⟨"K6", "600", "2019-01-06", "ATL", "JFK", "Boarding", "19:00:00", ""⟩]).1
    ⟨"flightkey", "flightnum", "flight_dt", "orig_arpt", "dest_arpt",
      "flightstatus", "lastupdt", ""⟩
    (List.mem_cons_self _ _) (Or.inr rfl)

/-- Witness for C8: the output row of a concrete run has a `flight_dt`
with zeroed time-of-day. -/
theorem flight_dt_normalized_C8_witness :
    (⟨"K2", "200", ⟨2019, 1, 2, 0, 0, 0⟩, "ATL", "DFW", "Boarding",
       some ⟨2019, 1, 2, 10, 0, 0⟩, none⟩ : OutRow).flight_dt.hour = 0 ∧
    (⟨"K2", "200", ⟨2019, 1, 2, 0, 0, 0⟩, "ATL", "DFW", "Boarding",
       some ⟨2019, 1, 2, 10, 0, 0⟩, none⟩ : OutRow).flight_dt.minute = 0 ∧
    (⟨"K2", "200", ⟨2019, 1, 2, 0, 0, 0⟩, "ATL", "DFW", "Boarding",
       some ⟨2019, 1, 2, 10, 0, 0⟩, none⟩ : OutRow).flight_dt.second = 0 :=
  flight_dt_normalized_C8 pdToDatetimeModel false
    [⟨"K2", "200", "2019-01-02", "ATL", "DFW", "Boarding", "2019-01-02 10:00:00", ""⟩]
    "drop"
    [⟨"K2", "200", ⟨2019, 1, 2, 0, 0, 0⟩, "ATL", "DFW", "Boarding",
       some ⟨2019, 1, 2, 10, 0, 0⟩, none⟩]
    rfl
    ⟨"K2", "200", ⟨2019, 1, 2, 0, 0, 0⟩, "ATL", "DFW", "Boarding",
      some ⟨2019, 1, 2, 10, 0, 0⟩, none⟩
    (List.mem_singleton.mpr rfl)

theorem digitVal_digitChar : ∀ n, n < 10 → digitVal (digitChar n) = n := by decide

theorem isDigit_digitChar : ∀ n, n < 10 → (digitChar n).isDigit = true := by decide

theorem daysInMonth_le (y m : Nat) : daysInMonth y m ≤ 31 := by
  unfold daysInMonth
  split
  · split <;> decide
  · split <;> decide

theorem pdToDatetimeModel_digits (Y1 Y2 Y3 Y4 M1 M2 D1 D2 H1 H2 N1 N2 S1 S2 : Nat)
    (hY1 : Y1 < 10) (hY2 : Y2 < 10) (hY3 : Y3 < 10) (hY4 : Y4 < 10)
    (hM1 : M1 < 10) (hM2 : M2 < 10) (hD1 : D1 < 10) (hD2 : D2 < 10)
    (hH1 : H1 < 10) (hH2 : H2 < 10) (hN1 : N1 < 10) (hN2 : N2 < 10)
    (hS1 : S1 < 10) (hS2 : S2 < 10) :
    pdToDatetimeModel (String.mk [digitChar Y1, digitChar Y2, digitChar Y3,
       digitChar Y4, '-', digitChar M1, digitChar M2, '-', digitChar D1,
       digitChar D2, ' ', digitChar H1, digitChar H2, ':', digitChar N1,
       digitChar N2, ':', digitChar S1, digitChar S2]) =
      (if validDT ⟨1000 * Y1 + 100 * Y2 + 10 * Y3 + Y4, 10 * M1 + M2,
          10 * D1 + D2, 10 * H1 + H2, 10 * N1 + N2, 10 * S1 + S2⟩ then
         some ⟨1000 * Y1 + 100 * Y2 + 10 * Y3 + Y4, 10 * M1 + M2,
           10 * D1 + D2, 10 * H1 + H2, 10 * N1 + N2, 10 * S1 + S2⟩
       else none) := by
  show (if (digitChar Y1).isDigit && (digitChar Y2).isDigit && (digitChar Y3).isDigit &&
          (digitChar Y4).isDigit && ('-' == '-') && (digitChar M1).isDigit &&
          (digitChar M2).isDigit && ('-' == '-') && (digitChar D1).isDigit &&
          (digitChar D2).isDigit && (' ' == ' ') && (digitChar H1).isDigit &&
          (digitChar H2).isDigit && (':' == ':') && (digitChar N1).isDigit &&
          (digitChar N2).isDigit && (':' == ':') && (digitChar S1).isDigit &&
          (digitChar S2).isDigit then
        (if validDT ⟨1000 * digitVal (digitChar Y1) + 100 * digitVal (digitChar Y2) +
              10 * digitVal (digitChar Y3) + digitVal (digitChar Y4),
            10 * digitVal (digitChar M1) + digitVal (digitChar M2),
            10 * digitVal (digitChar D1) + digitVal (digitChar D2),
            10 * digitVal (digitChar H1) + digitVal (digitChar H2),
            10 * digitVal (digitChar N1) + digitVal (digitChar N2),
            10 * digitVal (digitChar S1) + digitVal (digitChar S2)⟩ then
           some (⟨1000 * digitVal (digitChar Y1) + 100 * digitVal (digitChar Y2) +
               10 * digitVal (digitChar Y3) + digitVal (digitChar Y4),
             10 * digitVal (digitChar M1) + digitVal (digitChar M2),
             10 * digitVal (digitChar D1) + digitVal (digitChar D2),
             10 * digitVal (digitChar H1) + digitVal (digitChar H2),
             10 * digitVal (digitChar N1) + digitVal (digitChar N2),
             10 * digitVal (digitChar S1) + digitVal (digitChar S2)⟩ : DT)
         else none)
      else none) =
    (if validDT ⟨1000 * Y1 + 100 * Y2 + 10 * Y3 + Y4, 10 * M1 + M2,
        10 * D1 + D2, 10 * H1 + H2, 10 * N1 + N2, 10 * S1 + S2⟩ then
       some (⟨1000 * Y1 + 100 * Y2 + 10 * Y3 + Y4, 10 * M1 + M2,
         10 * D1 + D2, 10 * H1 + H2, 10 * N1 + N2, 10 * S1 + S2⟩ : DT)
     else none)
  rw [digitVal_digitChar Y1 hY1, digitVal_digitChar Y2 hY2, digitVal_digitChar Y3 hY3,
      digitVal_digitChar Y4 hY4, digitVal_digitChar M1 hM1, digitVal_digitChar M2 hM2,
      digitVal_digitChar D1 hD1, digitVal_digitChar D2 hD2, digitVal_digitChar H1 hH1,
      digitVal_digitChar H2 hH2, digitVal_digitChar N1 hN1, digitVal_digitChar N2 hN2,
      digitVal_digitChar S1 hS1, digitVal_digitChar S2 hS2]
  rw [if_pos (by
    simp only [isDigit_digitChar Y1 hY1, isDigit_digitChar Y2 hY2,
      isDigit_digitChar Y3 hY3, isDigit_digitChar Y4 hY4, isDigit_digitChar M1 hM1,
      isDigit_digitChar M2 hM2, isDigit_digitChar D1 hD1, isDigit_digitChar D2 hD2,
      isDigit_digitChar H1 hH1, isDigit_digitChar H2 hH2, isDigit_digitChar N1 hN1,
      isDigit_digitChar N2 hN2, isDigit_digitChar S1 hS1, isDigit_digitChar S2 hS2,
      Bool.and_true, Bool.true_and]
    rfl)]

theorem pdToDatetimeModel_format (d : DT) (h : validDT d = true) :
    pdToDatetimeModel (formatCanonical d) = some d := by
  obtain ⟨y, mo, dy, hh, mi, se⟩ := d
  have hcopy := h
  simp only [validDT, Bool.and_eq_true, decide_eq_true_eq] at h
  obtain ⟨⟨⟨⟨⟨⟨⟨⟨hA, hB⟩, hC⟩, hD⟩, hE⟩, hF⟩, hG⟩, hH⟩, hI⟩ := h
  have hdy31 : dy ≤ 31 :=
    le_trans hF (daysInMonth_le y mo)
  have hdq : formatCanonical ⟨y, mo, dy, hh, mi, se⟩ =
      String.mk [digitChar (y / 1000 % 10), digitChar (y / 100 % 10),
        digitChar (y / 10 % 10), digitChar (y % 10), '-', digitChar (mo / 10 % 10),
        digitChar (mo % 10), '-', digitChar (dy / 10 % 10), digitChar (dy % 10), ' ',
        digitChar (hh / 10 % 10), digitChar (hh % 10), ':', digitChar (mi / 10 % 10),
        digitChar (mi % 10), ':', digitChar (se / 10 % 10), digitChar (se % 10)] := rfl
  have hlt : ∀ n : Nat, n % 10 < 10 := fun n => Nat.mod_lt _ (by decide)
  rw [hdq, pdToDatetimeModel_digits _ _ _ _ _ _ _ _ _ _ _ _ _ _
        (hlt _) (hlt _) (hlt _) (hlt _) (hlt _) (hlt _) (hlt _) (hlt _)
        (hlt _) (hlt _) (hlt _) (hlt _) (hlt _) (hlt _)]
  have hy : 1000 * (y / 1000 % 10) + 100 * (y / 100 % 10) + 10 * (y / 10 % 10) +
      y % 10 = y := by omega
  have hmo : 10 * (mo / 10 % 10) + mo % 10 = mo := by omega
  have hdy : 10 * (dy / 10 % 10) + dy % 10 = dy := by omega
  have hhh : 10 * (hh / 10 % 10) + hh % 10 = hh := by omega
  have hmi : 10 * (mi / 10 % 10) + mi % 10 = mi := by omega
  have hse : 10 * (se / 10 % 10) + se % 10 = se := by omega
  rw [hy, hmo, hdy, hhh, hmi, hse, if_pos hcopy]

/-- C9: parsing a canonical full-timestamp string — the canonical format of
a representable instant — and re-formatting the parsed instant yields the
original string; the parse/format round trip is idempotent. -/
theorem roundtrip_canonical_C9 (s : String) (d : DT) (hd : validDT d = true)
    (hs : s = formatCanonical d) :
    ∃ d2, pdToDatetimeModel s = some d2 ∧ formatCanonical d2 = s := by
  refine ⟨d, ?_, hs.symm⟩
  rw [hs]
  exact pdToDatetimeModel_format d hd

/-- Witness for C9 at the spec's own example timestamp. -/
theorem roundtrip_canonical_C9_witness :
    ∃ d2, pdToDatetimeModel "2019-01-01 19:49:00" = some d2 ∧
      formatCanonical d2 = "2019-01-01 19:49:00" :=
  roundtrip_canonical_C9 "2019-01-01 19:49:00" ⟨2019, 1, 1, 19, 49, 0⟩ (by decide) rfl
